import Mathlib

/-!
Shallow embedding of the SteamToNotion sync tool (src/main.py) and proofs
about its reconciliation-and-upsert pipeline.

Conventions used throughout:
  * Python dicts that carry an identity map (`appid -> page id`) are modelled
    as association lists with newest-binding-first lookup, which has exactly
    the observable lookup behaviour of dict assignment (later writes win).
  * Network calls are modelled by per-attempt oracles: a call site receives a
    function from the (1-based) attempt number to the outcome that attempt
    had.  Exceptions raised by a call appear as explicit outcome constructors.
  * Python floats are modelled as rationals; `time.sleep` calls are recorded
    in a list of slept durations instead of actually sleeping; printing is
    recorded as a list of emitted status values.
-/

namespace SteamToNotion

/-! ### Configuration constants (src/main.py lines 21-28) -/

def STEAM_RETRY_TIMES : Nat := 5
def STEAM_TIMEOUT : Nat := 30
def REQUEST_DELAY : Nat := 2
def MAX_TAGS : Nat := 5
def MAX_DEVELOPERS : Nat := 3
def NOTION_RETRY_TIMES : Nat := 5
def NOTION_DELAY : Nat := 3

/-! ### Text utilities (src/main.py lines 32-74) -/

/-- Characters kept by the cleaning regex in `clean_zh_text`
(`[^一-龥a-zA-Z0-9\-—，。？！、："'()（）·]` is removed, i.e. the
complement of this predicate). -/
def allowedChar (c : Char) : Bool :=
  (0x4e00 ≤ c.toNat && c.toNat ≤ 0x9fa5) ||
  ('a' ≤ c && c ≤ 'z') || ('A' ≤ c && c ≤ 'Z') || ('0' ≤ c && c ≤ '9') ||
  ['-', '—', '，', '。', '？', '！', '、', '：', '"', '\'', '(', ')', '（', '）', '·'].contains c

/-- Model of `clean_zh_text` (line 32): drop every character outside the
allow-list.  A Python `None`/empty argument is represented by `""`. -/
def clean_zh_text (text : String) : String :=
  String.mk (text.toList.filter allowedChar)

/-- Model of `clean_url` (line 70): falsy input gives `""`, otherwise split on
the first `?` and strip surrounding whitespace. -/
def clean_url (url : String) : String :=
  if url = "" then "" else ((url.splitOn "?").headD "").trim

/-! ### Game details fetch (src/main.py lines 106-148) -/

/-- The `EXCLUDE_TAGS` set of `get_game_details_with_cover` (lines 108-118). -/
def EXCLUDE_TAGS : List String :=
  ["集换式卡牌", "成就", "云存储", "排行榜", "关卡编辑器",
   "创意工坊", "共享/分屏", "控制器", "远程畅玩", "内购",
   "游戏内广告", "免费开玩", "可以仅用触控", "自定义音量控制", "Steam成就", "同屏分屏",
   "应用内购买", "线上玩家对战", "在手机上远程畅玩", "在平板上远程畅玩", "可调整文字大小",
   "在电视上远程畅玩", "Steam集换式卡牌", "Steam云", "家庭共享", "Steam排行榜", "统计数据",
   "完全支持控制器", "Steam创意工坊", "包含关卡编辑器", "无需应对快速反应事件", "跨平台多人",
   "在线合作", "可选颜色", "环绕声", "立体声", "可用HDR", "抢先体验", "远程同乐", "定位控制器支持",
   "Steam时间轴", "已启用Valve反作弊保护", "视角舒适度", "聊天语音转文字", "可以仅用键盘", "部分支持控制器",
   "大型多人在线"]

/-- The `data` dictionary a successful appdetails response yields (the
`genres`/`categories` entries are represented by their `description` strings,
`metacritic` by its optional `score`). -/
structure SteamData where
  name : String
  header_image : Option String
  genres : List String
  categories : List String
  developers : List String
  release_date : Option String
  metacritic_score : Option Int
deriving DecidableEq

/-- The tag-filtering loop of `get_game_details_with_cover` (lines 129-134):
clean each description, keep it when it is non-empty, not excluded and shorter
than 20 characters. -/
def validTags (genres categories : List String) : List String :=
  ((genres ++ categories).map clean_zh_text).filter
    (fun tag => decide (tag ≠ "" ∧ tag ∉ EXCLUDE_TAGS ∧ tag.length < 20))

/-- The `zh_tags` field (line 140): `list(set(valid_tags))[:MAX_TAGS]`.
Python's set iteration order is unspecified; we model the deduplication with
`List.dedup`, which realises one admissible order. -/
def zhTags (genres categories : List String) : List String :=
  (validTags genres categories).dedup.take MAX_TAGS

/-- Return value of a successful `get_game_details_with_cover` call
(lines 136-144). -/
structure DetailData where
  name : String
  cover_url : String
  store_url : String
  zh_tags : List String
  developers : List String
  release_date : Option String
  metacritic : Int
deriving DecidableEq

/-- The dictionary built on lines 136-144 from a parsed response. -/
def parseDetail (appid : Nat) (data : SteamData) : DetailData :=
  { name := clean_zh_text data.name
    cover_url := clean_url (data.header_image.getD "")
    store_url := "https://store.steampowered.com/app/" ++ toString appid ++ "/"
    zh_tags := zhTags data.genres data.categories
    developers := data.developers.take MAX_DEVELOPERS
    release_date := data.release_date
    metacritic := max 0 (min 100 (data.metacritic_score.getD 0)) }

/-- The retry loop of `get_game_details_with_cover` (lines 123-148) over the
list of remaining attempt numbers.  A `none` oracle outcome is an attempt that
raised; it sleeps `REQUEST_DELAY * attempt` and retries.  Exhaustion returns
`none` (the Python `{}`).  The second component counts attempts actually
performed, the third lists the slept delays in order. -/
def detailsGo (appid : Nat) (oracle : Nat → Option SteamData) :
    List Nat → Option DetailData × Nat × List Nat
  | [] => (none, 0, [])
  | attempt :: rest =>
    match oracle attempt with
    | some data => (some (parseDetail appid data), 1, [])
    | none =>
      let r := detailsGo appid oracle rest
      (r.1, r.2.1 + 1, REQUEST_DELAY * attempt :: r.2.2)

/-- Model of `get_game_details_with_cover` (line 106), with the network
abstracted into a per-attempt oracle. -/
def get_game_details_with_cover (appid : Nat) (oracle : Nat → Option SteamData) :
    Option DetailData × Nat × List Nat :=
  detailsGo appid oracle (List.range' 1 STEAM_RETRY_TIMES)

/-! ### Achievements fetch and completion rate (src/main.py lines 275-319) -/

/-- One entry of the achievements list; `achieved` is the integer flag the
Steam API reports (absent keys read as 0 through `.get("achieved", 0)`). -/
structure Ach where
  achieved : Int
deriving DecidableEq

/-- Value returned by `get_game_achievements`: the parsed list on a successful
attempt, and the literal `{}` (an empty dict, not a list) when every retry was
exhausted (line 288). -/
inductive AchFetchResult where
  | lst (l : List Ach)
  | emptyDict
deriving DecidableEq

/-- How the caller consumes an `AchFetchResult`: both `[]` and `{}` are falsy
in Python, so `calculate_achievement_rate` treats the empty dict exactly like
an empty list. -/
def AchFetchResult.toAchList : AchFetchResult → List Ach
  | .lst l => l
  | .emptyDict => []

/-- Retry loop of `get_game_achievements` (lines 277-288): attempts that raise
sleep `REQUEST_DELAY * attempt` and retry; a non-raising attempt returns its
parsed achievements list. -/
def achGo (oracle : Nat → Option (List Ach)) :
    List Nat → AchFetchResult × Nat × List Nat
  | [] => (.emptyDict, 0, [])
  | attempt :: rest =>
    match oracle attempt with
    | some achs => (.lst achs, 1, [])
    | none =>
      let r := achGo oracle rest
      (r.1, r.2.1 + 1, REQUEST_DELAY * attempt :: r.2.2)

/-- Model of `get_game_achievements` (line 275). -/
def get_game_achievements (oracle : Nat → Option (List Ach)) :
    AchFetchResult × Nat × List Nat :=
  achGo oracle (List.range' 1 STEAM_RETRY_TIMES)

/-- Return value of `calculate_achievement_rate`; the float completion rate is
modelled as a rational.  The cosmetic `percentage` string (the rate formatted
to one decimal) is a pure rendering of `rate` and is not modelled. -/
structure AchStats where
  total : Nat
  unlocked : Nat
  rate : ℚ
deriving DecidableEq

/-- Model of `calculate_achievement_rate` (lines 292-319). -/
def calculate_achievement_rate (achievements : List Ach) : AchStats :=
  if achievements = [] then
    { total := 0, unlocked := 0, rate := 0 }
  else
    let total := achievements.length
    let unlocked := (achievements.filter (fun a => a.achieved == 1)).length
    { total := total, unlocked := unlocked
      rate := if 0 < total then (unlocked : ℚ) / (total : ℚ) else 0 }

/-! ### Owned-games listing (src/main.py lines 88-103) -/

/-- One owned-games entry; only the fields the modelled code reads. -/
structure Game where
  appid : Nat
  playtime_forever : Option Nat
  rtime_last_played : Option Nat
deriving DecidableEq

/-- The sort key `x.get("playtime_forever", 0)` (line 98). -/
def playKey (g : Game) : Nat := g.playtime_forever.getD 0

/-- Descending playtime order used by `sorted(..., reverse=True)`. -/
def playDesc (a b : Game) : Prop := playKey b ≤ playKey a

instance : DecidableRel playDesc := fun a b => Nat.decLe (playKey b) (playKey a)

instance : IsTotal Game playDesc :=
  ⟨fun a b => (Nat.le_total (playKey b) (playKey a)).imp id id⟩

instance : IsTrans Game playDesc :=
  ⟨fun _ _ _ h1 h2 => Nat.le_trans h2 h1⟩

/-- The `sorted(games, key=..., reverse=True)` call (line 98), modelled by a
stable sort with the same descending comparison. -/
def sortOwnedGames (games : List Game) : List Game :=
  games.insertionSort playDesc

/-- Outcome of one attempt of the owned-games request: an exception, a
non-200 status, or a 200 response carrying the parsed games list. -/
inductive SteamApiResp where
  | exn
  | badStatus
  | ok (games : List Game)

/-- Retry loop of `get_steam_games` (lines 92-103): non-200 and raising
attempts both retry; a 200 response returns the playtime-sorted list;
exhaustion returns `[]`. -/
def steamGamesGo (oracle : Nat → SteamApiResp) : List Nat → List Game
  | [] => []
  | attempt :: rest =>
    match oracle attempt with
    | .ok gs => sortOwnedGames gs
    | _ => steamGamesGo oracle rest

/-- Model of `get_steam_games` (line 88). -/
def get_steam_games (oracle : Nat → SteamApiResp) : List Game :=
  steamGamesGo oracle (List.range' 1 STEAM_RETRY_TIMES)

/-! ### Identity maps over Notion pages (src/main.py lines 250-271) -/

/-- A Notion page as read back from a datasource query: its id and the
`plain_text` runs of its `appid` rich-text property (empty list when the
property is missing or empty).  Other written properties (titles, numbers,
dates, tags) are never read back by the modelled code, so they are not
carried here. -/
structure Page where
  pid : String
  appidTexts : List String
deriving DecidableEq

/-- The appid extraction of `create_appid_map_for_pages` (lines 265-269): take
the first rich-text run's plain text; a missing run or empty text means the
page is skipped. -/
def extractAppid (p : Page) : Option String :=
  match p.appidTexts with
  | [] => none
  | t :: _ => if t = "" then none else some t

/-- Identity maps: association lists with newest binding first, so that
lookup behaves exactly like lookup in a Python dict mutated by assignment. -/
abbrev AppidMap : Type := List (String × String)

/-- Dict assignment `m[k] = v`. -/
def mapInsert (k v : String) (m : AppidMap) : AppidMap := (k, v) :: m

/-- Dict lookup (also used for the `in` membership tests). -/
def mapLookup (m : AppidMap) (k : String) : Option String :=
  match m with
  | [] => none
  | (k', v) :: rest => if k' = k then some v else mapLookup rest k

/-- One step of the scan in `create_appid_map_for_pages`: assign
`appid_map[appid_text] = page_id` when the page's appid text is present and
non-empty, otherwise skip the page. -/
def createStep (m : AppidMap) (p : Page) : AppidMap :=
  match extractAppid p with
  | none => m
  | some k => mapInsert k p.pid m

/-- Model of `create_appid_map_for_pages` (lines 250-271): scan the pages in
order, assigning into an initially empty dict. -/
def create_appid_map_for_pages (pages : List Page) : AppidMap :=
  pages.foldl createStep []

/-! ### The per-item upsert engine (src/main.py lines 335-487) -/

/-- Status printed for an item: the `✅ 成功`, `❌ 失败(连接)`,
`❌ 失败(e)` and `⚠️ 跳过(e)` lines. -/
inductive Status where
  | success
  | failConn
  | failOther (msg : String)
  | skip (msg : String)
deriving DecidableEq

/-- Outcome of one Notion API call attempt: a successful call returning the
created/updated page id, a raised `requests.exceptions.ConnectionError`, or
any other raised exception. -/
inductive CallResult where
  | ok (pid : String)
  | connErr
  | otherErr (msg : String)
deriving DecidableEq

/-- Result of the primary-mutation retry loop (lines 430-457): the status it
leaves behind, the increments it applies to the success/fail counters, the id
of the page it created in the steam collection (`none` when it updated in
place or failed), the number of attempts performed, and the slept delays. -/
structure RetryOut where
  status : Status
  succInc : Nat
  failInc : Nat
  createdPid : Option String
  attempts : Nat
  sleeps : List Nat
deriving DecidableEq

/-- The `for attempt in range(1, NOTION_RETRY_TIMES + 1)` loop (lines
430-457) over the list of remaining attempt numbers.  `inMap` tells whether
the item's key was present in the steam identity map (constant across
attempts: the map only changes when a create succeeds, which exits the loop).
A connection error on the last attempt records a failure; on earlier attempts
it sleeps `NOTION_DELAY * attempt` and retries.  Any other exception aborts
immediately with a failure; success increments the success counter and, in
the create branch, reports the new page id. -/
def notionRetryGo (inMap : Bool) (oracle : Nat → CallResult) :
    List Nat → RetryOut
  | [] => ⟨.skip "unreachable", 0, 0, none, 0, []⟩
  | attempt :: rest =>
    match oracle attempt with
    | .ok pid => ⟨.success, 1, 0, if inMap then none else some pid, 1, []⟩
    | .otherErr m => ⟨.failOther m, 0, 1, none, 1, []⟩
    | .connErr =>
      if attempt = NOTION_RETRY_TIMES then ⟨.failConn, 0, 1, none, 1, []⟩
      else
        let r := notionRetryGo inMap oracle rest
        ⟨r.status, r.succInc, r.failInc, r.createdPid, r.attempts + 1,
          NOTION_DELAY * attempt :: r.sleeps⟩

/-- The primary-mutation retry loop entered at attempt 1. -/
def notionRetryLoop (inMap : Bool) (oracle : Nat → CallResult) : RetryOut :=
  notionRetryGo inMap oracle (List.range' 1 NOTION_RETRY_TIMES)

/-- Per-item network environment: the outcome of the rate-collection page
create (if issued), the per-attempt outcomes of the primary steam-collection
mutation, and the outcome of the main-collection page create (if issued). -/
structure ItemEnv where
  rateCreateRes : CallResult
  primaryAttempt : Nat → CallResult
  mainCreateRes : CallResult

/-- The in-memory state of `import_to_notion` while iterating over the
selected games: the three identity maps, the three outcome counters, the
status lines printed so far, and the pages created / updated in each
collection during this run (in order). -/
structure RunState where
  rateMap : AppidMap
  steamMap : AppidMap
  mainMap : AppidMap
  success_count : Nat
  fail_count : Nat
  skipped_count : Nat
  statusLines : List Status
  rateCreatedPages : List Page
  steamCreatedPages : List Page
  steamUpdatedKeys : List String
  mainCreatedPages : List Page
deriving DecidableEq

/-- Print the item's status line (line 478). -/
def RunState.addLine (st : RunState) (s : Status) : RunState :=
  { st with statusLines := st.statusLines ++ [s] }

/-- The outer `except` handler (lines 473-475) followed by the status line:
count the item as skipped and print a skip line. -/
def RunState.skipItem (st : RunState) (msg : String) : RunState :=
  { st with skipped_count := st.skipped_count + 1
            statusLines := st.statusLines ++ [Status.skip msg] }

/-- Apply what the primary retry loop did to the run state: counter
increments, and — when a create succeeded — the new steam page and the
in-memory map assignment `appid_map_steam_page_id[str(appid)] = id`
(line 444).  A success in the update branch (`inMap`) records the key as
updated in place. -/
def applyRetry (key : String) (inMap : Bool) (out : RetryOut) (st : RunState) :
    RunState :=
  { st with
    success_count := st.success_count + out.succInc
    fail_count := st.fail_count + out.failInc
    steamMap :=
      match out.createdPid with
      | some pid => mapInsert key pid st.steamMap
      | none => st.steamMap
    steamCreatedPages :=
      match out.createdPid with
      | some pid => st.steamCreatedPages ++ [⟨pid, [key]⟩]
      | none => st.steamCreatedPages
    steamUpdatedKeys :=
      if inMap ∧ out.status = Status.success then st.steamUpdatedKeys ++ [key]
      else st.steamUpdatedKeys }

/-- The main-collection section (lines 459-472) followed by the status line.
When the key is absent from the main identity map the code builds a property
bag that indexes `appid_map_rate_page_id[str(appid)]` and then
`appid_map_steam_page_id[str(appid)]`; a missing key raises `KeyError`, which
the outer handler turns into a skip.  A successful create appends the new
page but — exactly as in the source — never assigns it back into
`appid_map_main_page_id`. -/
def mainSection (key : String) (e : ItemEnv) (status : Status) (st : RunState) :
    RunState :=
  match mapLookup st.mainMap key with
  | some _ => st.addLine status
  | none =>
    match mapLookup st.rateMap key with
    | none => st.skipItem "KeyError"
    | some _ =>
      match mapLookup st.steamMap key with
      | none => st.skipItem "KeyError"
      | some _ =>
        match e.mainCreateRes with
        | .ok pid =>
          ({ st with mainCreatedPages := st.mainCreatedPages ++ [⟨pid, [key]⟩]
           } : RunState).addLine status
        | .connErr => st.skipItem "ConnectionError"
        | .otherErr m => st.skipItem m

/-- The cover url the per-item loop reads from a fetched detail
(`details.get("cover_url")`, falsy for both `{}` and an empty url). -/
def coverOf : Option DetailData → String
  | none => ""
  | some dd => dd.cover_url

/-- Everything after the rate-collection section: the empty-cover check
(line 405: `if not details.get("cover_url"): continue` — no status line, no
counter), then the primary retry loop, then the main-collection section. -/
def afterRate (key : String) (e : ItemEnv) (d : Option DetailData)
    (st : RunState) : RunState :=
  if coverOf d = "" then st
  else
    let inMap := (mapLookup st.steamMap key).isSome
    let out := notionRetryLoop inMap e.primaryAttempt
    mainSection key e out.status (applyRetry key inMap out st)

/-- One iteration of the `for idx, game in enumerate(games, 1)` loop (lines
365-479).  `details g.appid` is the value the details fetch returned for this
item (`none` models the `{}` of an exhausted fetch; neither the details nor
the achievements fetch can raise, see the retry-exhaustion theorems).  The
achievements statistics only feed property values that are never read back,
so they do not appear in the state.  The rate-collection stub section (lines
386-400) runs before the cover check; a raised create lands in the outer
handler, after which the item's line is printed. -/
def processItem (details : Nat → Option DetailData) (env : Nat → ItemEnv)
    (st : RunState) (g : Game) : RunState :=
  let key := toString g.appid
  let e := env g.appid
  match mapLookup st.rateMap key with
  | some _ => afterRate key e (details g.appid) st
  | none =>
    match e.rateCreateRes with
    | .ok pid =>
      afterRate key e (details g.appid)
        { st with rateMap := mapInsert key pid st.rateMap
                  rateCreatedPages := st.rateCreatedPages ++ [⟨pid, [key]⟩] }
    | .connErr => st.skipItem "ConnectionError"
    | .otherErr m => st.skipItem m

/-- The three destination collections as lists of pages. -/
structure DestState where
  steamPages : List Page
  ratePages : List Page
  mainPages : List Page
deriving DecidableEq

/-- The state `import_to_notion` starts from (lines 339-357): zero counters
and the three identity maps built from a full scan of each collection. -/
def initState (D : DestState) : RunState :=
  { rateMap := create_appid_map_for_pages D.ratePages
    steamMap := create_appid_map_for_pages D.steamPages
    mainMap := create_appid_map_for_pages D.mainPages
    success_count := 0
    fail_count := 0
    skipped_count := 0
    statusLines := []
    rateCreatedPages := []
    steamCreatedPages := []
    steamUpdatedKeys := []
    mainCreatedPages := [] }

/-- Model of `import_to_notion` (line 335): build the identity maps, then
fold the per-item processing over the selected games. -/
def import_to_notion (details : Nat → Option DetailData) (env : Nat → ItemEnv)
    (D : DestState) (games : List Game) : RunState :=
  games.foldl (processItem details env) (initState D)

/-- The destination state left behind by a run: each collection holds its
previous pages plus the pages the run created. -/
def finalDest (D : DestState) (r : RunState) : DestState :=
  { steamPages := D.steamPages ++ r.steamCreatedPages
    ratePages := D.ratePages ++ r.rateCreatedPages
    mainPages := D.mainPages ++ r.mainCreatedPages }

/-- The selected games whose fetched detail carries a non-empty cover url
(the items the per-item loop actually pushes into the steam collection). -/
def coveredItems (details : Nat → Option DetailData) (games : List Game) :
    List Game :=
  games.filter (fun g => coverOf (details g.appid) != "")

/-- An environment in which every destination mutation the run issues
succeeds (the setting of the end-to-end and idempotence properties). -/
def EnvAllOk (env : Nat → ItemEnv) : Prop :=
  ∀ a, (∃ p, (env a).rateCreateRes = CallResult.ok p) ∧
       (∃ p, (env a).primaryAttempt 1 = CallResult.ok p) ∧
       (∃ p, (env a).mainCreateRes = CallResult.ok p)

/-! ### Basic lemmas: decimal rendering, identity-map lookup -/

theorem toDigitsCore_ne_nil (b : Nat) :
    ∀ (fuel n : Nat) (ds : List Char), ds ≠ [] →
      Nat.toDigitsCore b fuel n ds ≠ []
  | 0, _, ds, h => by simpa [Nat.toDigitsCore] using h
  | fuel + 1, n, ds, h => by
    simp only [Nat.toDigitsCore]
    split
    · simp
    · exact toDigitsCore_ne_nil b fuel (n / b) _ (by simp)

/-- The textual identity key `str(appid)` of an item is never empty, so pages
created with it are always picked up by `create_appid_map_for_pages`. -/
theorem toString_nat_ne_empty (n : Nat) : toString n ≠ "" := by
  show Nat.repr n ≠ ""
  unfold Nat.repr Nat.toDigits
  intro h
  have h2 : Nat.toDigitsCore 10 (n + 1) n [] = [] := by
    have := congrArg String.data h
    simpa [List.asString] using this
  revert h2
  simp only [Nat.toDigitsCore]
  split
  · simp
  · intro h2
    exact toDigitsCore_ne_nil 10 _ _ _ (by simp) h2

theorem mapLookup_insert_self (k v : String) (m : AppidMap) :
    mapLookup (mapInsert k v m) k = some v := by
  simp [mapInsert, mapLookup]

theorem mapLookup_insert_of_ne {k' k : String} (h : k' ≠ k) (v : String)
    (m : AppidMap) : mapLookup (mapInsert k' v m) k = mapLookup m k := by
  simp [mapInsert, mapLookup, h]

theorem isSome_mapLookup_insert (k' v : String) (m : AppidMap) (k : String) :
    (mapLookup (mapInsert k' v m) k).isSome ↔
      k' = k ∨ (mapLookup m k).isSome := by
  by_cases h : k' = k
  · subst h
    simp [mapLookup_insert_self]
  · simp [mapLookup_insert_of_ne h, h]

theorem isSome_mapLookup_insert_of {m : AppidMap} {k : String}
    (h : (mapLookup m k).isSome) (k' v : String) :
    (mapLookup (mapInsert k' v m) k).isSome :=
  (isSome_mapLookup_insert k' v m k).mpr (Or.inr h)

/-! ### Lemmas about `create_appid_map_for_pages` -/

theorem createStep_lookup_of_ne {p : Page} {k : String}
    (h : extractAppid p ≠ some k) (m : AppidMap) :
    mapLookup (createStep m p) k = mapLookup m k := by
  unfold createStep
  cases he : extractAppid p with
  | none => rfl
  | some k' =>
    have hne : k' ≠ k := fun hkk => h (hkk ▸ he)
    exact mapLookup_insert_of_ne hne _ _

theorem create_go_lookup_of_no_match {ps : List Page} {k : String}
    (h : ∀ p ∈ ps, extractAppid p ≠ some k) (m : AppidMap) :
    mapLookup (ps.foldl createStep m) k = mapLookup m k := by
  induction ps generalizing m with
  | nil => rfl
  | cons p rest ih =>
    rw [List.foldl_cons, ih (fun q hq => h q (List.mem_cons_of_mem p hq)),
      createStep_lookup_of_ne (h p (List.mem_cons_self p rest))]

theorem isSome_create_go (ps : List Page) (m : AppidMap) (k : String) :
    (mapLookup (ps.foldl createStep m) k).isSome ↔
      (∃ p ∈ ps, extractAppid p = some k) ∨ (mapLookup m k).isSome := by
  induction ps generalizing m with
  | nil => simp
  | cons p rest ih =>
    rw [List.foldl_cons, ih]
    constructor
    · rintro (⟨q, hq, hqk⟩ | hm)
      · exact Or.inl ⟨q, List.mem_cons_of_mem p hq, hqk⟩
      · unfold createStep at hm
        revert hm
        cases he : extractAppid p with
        | none => exact fun hm => Or.inr hm
        | some k' =>
          intro hm
          rcases (isSome_mapLookup_insert k' p.pid m k).mp hm with hk | hm'
          · exact Or.inl ⟨p, List.mem_cons_self p rest, hk ▸ he⟩
          · exact Or.inr hm'
    · rintro (⟨q, hq, hqk⟩ | hm)
      · rcases List.mem_cons.mp hq with hqp | hqrest
        · subst hqp
          right
          unfold createStep
          rw [hqk]
          exact (isSome_mapLookup_insert k q.pid m k).mpr (Or.inl rfl)
        · exact Or.inl ⟨q, hqrest, hqk⟩
      · right
        unfold createStep
        cases he : extractAppid p with
        | none => exact hm
        | some k' => exact isSome_mapLookup_insert_of hm k' p.pid

/-- A key is bound in the identity map iff some page of the collection
carries it. -/
theorem isSome_create_appid_map (ps : List Page) (k : String) :
    (mapLookup (create_appid_map_for_pages ps) k).isSome ↔
      ∃ p ∈ ps, extractAppid p = some k := by
  unfold create_appid_map_for_pages
  rw [isSome_create_go]
  simp [mapLookup]

/-- Duplicate identity keys resolve to the last-seen page in scan order:
later dict assignments overwrite earlier ones. -/
theorem create_appid_map_last_seen (l₁ : List Page) (p : Page)
    (l₂ : List Page) (k : String) (hp : extractAppid p = some k)
    (h₂ : ∀ q ∈ l₂, extractAppid q ≠ some k) :
    mapLookup (create_appid_map_for_pages (l₁ ++ p :: l₂)) k = some p.pid := by
  unfold create_appid_map_for_pages
  rw [List.foldl_append, List.foldl_cons, create_go_lookup_of_no_match h₂]
  unfold createStep
  rw [hp]
  exact mapLookup_insert_self _ _ _

/-! ### Lemmas about the primary-mutation retry loop -/

theorem range_one_five : List.range' 1 NOTION_RETRY_TIMES = [1, 2, 3, 4, 5] :=
  rfl

theorem notionRetry_ok1 {oracle : Nat → CallResult} {pid : String}
    (inMap : Bool) (h : oracle 1 = CallResult.ok pid) :
    notionRetryLoop inMap oracle =
      ⟨Status.success, 1, 0, if inMap then none else some pid, 1, []⟩ := by
  rw [notionRetryLoop, range_one_five]
  simp [notionRetryGo, h]

theorem notionRetry_all_conn {oracle : Nat → CallResult} (inMap : Bool)
    (h : ∀ i, 1 ≤ i → i ≤ NOTION_RETRY_TIMES → oracle i = CallResult.connErr) :
    notionRetryLoop inMap oracle =
      ⟨Status.failConn, 0, 1, none, NOTION_RETRY_TIMES,
        [NOTION_DELAY * 1, NOTION_DELAY * 2, NOTION_DELAY * 3,
          NOTION_DELAY * 4]⟩ := by
  rw [notionRetryLoop, range_one_five]
  have h1 := h 1 (by decide) (by decide)
  have h2 := h 2 (by decide) (by decide)
  have h3 := h 3 (by decide) (by decide)
  have h4 := h 4 (by decide) (by decide)
  have h5 := h 5 (by decide) (by decide)
  simp [notionRetryGo, h1, h2, h3, h4, h5, NOTION_RETRY_TIMES, NOTION_DELAY]

theorem notionRetry_first_other {oracle : Nat → CallResult} (inMap : Bool)
    (k : Nat) (m : String) (hk1 : 1 ≤ k) (hk5 : k ≤ NOTION_RETRY_TIMES)
    (hbefore : ∀ i, 1 ≤ i → i < k → oracle i = CallResult.connErr)
    (hk : oracle k = CallResult.otherErr m) :
    (notionRetryLoop inMap oracle).status = Status.failOther m ∧
      (notionRetryLoop inMap oracle).succInc = 0 ∧
      (notionRetryLoop inMap oracle).failInc = 1 ∧
      (notionRetryLoop inMap oracle).createdPid = none ∧
      (notionRetryLoop inMap oracle).attempts = k := by
  rw [notionRetryLoop, range_one_five]
  rw [NOTION_RETRY_TIMES] at hk5
  interval_cases k
  · simp [notionRetryGo, hk]
  · have h1 := hbefore 1 (by norm_num) (by norm_num)
    simp [notionRetryGo, h1, hk, NOTION_RETRY_TIMES]
  · have h1 := hbefore 1 (by norm_num) (by norm_num)
    have h2 := hbefore 2 (by norm_num) (by norm_num)
    simp [notionRetryGo, h1, h2, hk, NOTION_RETRY_TIMES]
  · have h1 := hbefore 1 (by norm_num) (by norm_num)
    have h2 := hbefore 2 (by norm_num) (by norm_num)
    have h3 := hbefore 3 (by norm_num) (by norm_num)
    simp [notionRetryGo, h1, h2, h3, hk, NOTION_RETRY_TIMES]
  · have h1 := hbefore 1 (by norm_num) (by norm_num)
    have h2 := hbefore 2 (by norm_num) (by norm_num)
    have h3 := hbefore 3 (by norm_num) (by norm_num)
    have h4 := hbefore 4 (by norm_num) (by norm_num)
    simp [notionRetryGo, h1, h2, h3, h4, hk, NOTION_RETRY_TIMES]

theorem notionRetry_first_ok {oracle : Nat → CallResult} (inMap : Bool)
    (k : Nat) (pid : String) (hk1 : 1 ≤ k) (hk5 : k ≤ NOTION_RETRY_TIMES)
    (hbefore : ∀ i, 1 ≤ i → i < k → oracle i = CallResult.connErr)
    (hk : oracle k = CallResult.ok pid) :
    (notionRetryLoop inMap oracle).status = Status.success ∧
      (notionRetryLoop inMap oracle).succInc = 1 ∧
      (notionRetryLoop inMap oracle).failInc = 0 ∧
      (notionRetryLoop inMap oracle).attempts = k := by
  rw [notionRetryLoop, range_one_five]
  rw [NOTION_RETRY_TIMES] at hk5
  interval_cases k
  · simp [notionRetryGo, hk]
  · have h1 := hbefore 1 (by norm_num) (by norm_num)
    simp [notionRetryGo, h1, hk, NOTION_RETRY_TIMES]
  · have h1 := hbefore 1 (by norm_num) (by norm_num)
    have h2 := hbefore 2 (by norm_num) (by norm_num)
    simp [notionRetryGo, h1, h2, hk, NOTION_RETRY_TIMES]
  · have h1 := hbefore 1 (by norm_num) (by norm_num)
    have h2 := hbefore 2 (by norm_num) (by norm_num)
    have h3 := hbefore 3 (by norm_num) (by norm_num)
    simp [notionRetryGo, h1, h2, h3, hk, NOTION_RETRY_TIMES]
  · have h1 := hbefore 1 (by norm_num) (by norm_num)
    have h2 := hbefore 2 (by norm_num) (by norm_num)
    have h3 := hbefore 3 (by norm_num) (by norm_num)
    have h4 := hbefore 4 (by norm_num) (by norm_num)
    simp [notionRetryGo, h1, h2, h3, h4, hk, NOTION_RETRY_TIMES]

/-! ### Structural lemmas about the per-item engine -/

theorem applyRetry_fields (key : String) (inMap : Bool) (out : RetryOut)
    (st : RunState) :
    (applyRetry key inMap out st).rateMap = st.rateMap ∧
    (applyRetry key inMap out st).mainMap = st.mainMap ∧
    (applyRetry key inMap out st).rateCreatedPages = st.rateCreatedPages ∧
    (applyRetry key inMap out st).mainCreatedPages = st.mainCreatedPages ∧
    (applyRetry key inMap out st).skipped_count = st.skipped_count ∧
    (applyRetry key inMap out st).statusLines = st.statusLines := by
  unfold applyRetry
  exact ⟨rfl, rfl, rfl, rfl, rfl, rfl⟩

theorem mainSection_fields (key : String) (e : ItemEnv) (status : Status)
    (st : RunState) :
    (mainSection key e status st).rateMap = st.rateMap ∧
    (mainSection key e status st).steamMap = st.steamMap ∧
    (mainSection key e status st).mainMap = st.mainMap ∧
    (mainSection key e status st).rateCreatedPages = st.rateCreatedPages ∧
    (mainSection key e status st).steamCreatedPages = st.steamCreatedPages ∧
    (mainSection key e status st).steamUpdatedKeys = st.steamUpdatedKeys ∧
    (mainSection key e status st).success_count = st.success_count ∧
    (mainSection key e status st).fail_count = st.fail_count := by
  unfold mainSection
  repeat' split
  all_goals simp [RunState.addLine, RunState.skipItem]

theorem mainSection_mainCreated (key : String) (e : ItemEnv) (status : Status)
    (st : RunState) :
    ∃ l, (mainSection key e status st).mainCreatedPages =
      st.mainCreatedPages ++ l := by
  unfold mainSection
  repeat' split
  all_goals simp only [RunState.addLine, RunState.skipItem]
  all_goals first
    | exact ⟨_, rfl⟩
    | exact ⟨[], by simp⟩

theorem afterRate_noCover {d : Option DetailData} (h : coverOf d = "")
    (key : String) (e : ItemEnv) (st : RunState) :
    afterRate key e d st = st := by
  unfold afterRate
  rw [if_pos h]

theorem afterRate_fields (key : String) (e : ItemEnv) (d : Option DetailData)
    (st : RunState) :
    (afterRate key e d st).rateMap = st.rateMap ∧
    (afterRate key e d st).rateCreatedPages = st.rateCreatedPages ∧
    (afterRate key e d st).mainMap = st.mainMap := by
  unfold afterRate
  split
  · exact ⟨rfl, rfl, rfl⟩
  · obtain ⟨a1, a2, a3, a4, _, _⟩ :=
      applyRetry_fields key ((mapLookup st.steamMap key).isSome)
        (notionRetryLoop ((mapLookup st.steamMap key).isSome) e.primaryAttempt)
        st
    obtain ⟨m1, _, m3, m4, _, _, _, _⟩ :=
      mainSection_fields key e
        (notionRetryLoop ((mapLookup st.steamMap key).isSome)
          e.primaryAttempt).status
        (applyRetry key ((mapLookup st.steamMap key).isSome)
          (notionRetryLoop ((mapLookup st.steamMap key).isSome)
            e.primaryAttempt) st)
    exact ⟨m1.trans a1, m4.trans a3, m3.trans a2⟩

theorem processItem_mainMap (details : Nat → Option DetailData)
    (env : Nat → ItemEnv) (st : RunState) (g : Game) :
    (processItem details env st g).mainMap = st.mainMap := by
  unfold processItem
  dsimp only
  split
  · exact (afterRate_fields _ _ _ _).2.2
  · split
    · exact (afterRate_fields _ _ _ _).2.2
    · simp [RunState.skipItem]
    · simp [RunState.skipItem]

theorem processItem_rate_shape (details : Nat → Option DetailData)
    (env : Nat → ItemEnv) (st : RunState) (g : Game) :
    ((processItem details env st g).rateMap = st.rateMap ∧
      (processItem details env st g).rateCreatedPages =
        st.rateCreatedPages) ∨
    (∃ pid, (processItem details env st g).rateMap =
        mapInsert (toString g.appid) pid st.rateMap ∧
      (processItem details env st g).rateCreatedPages =
        st.rateCreatedPages ++ [⟨pid, [toString g.appid]⟩]) := by
  unfold processItem
  dsimp only
  split
  · exact Or.inl ⟨(afterRate_fields _ _ _ _).1, (afterRate_fields _ _ _ _).2.1⟩
  · split
    · rename_i pid _
      right
      refine ⟨pid, ?_, ?_⟩
      · exact ((afterRate_fields _ _ _ _).1).trans rfl
      · exact ((afterRate_fields _ _ _ _).2.1).trans rfl
    · exact Or.inl ⟨by simp [RunState.skipItem], by simp [RunState.skipItem]⟩
    · exact Or.inl ⟨by simp [RunState.skipItem], by simp [RunState.skipItem]⟩

theorem applyRetry_steam (key : String) (inMap : Bool) (out : RetryOut)
    (st : RunState) :
    (out.createdPid = none →
      (applyRetry key inMap out st).steamMap = st.steamMap ∧
      (applyRetry key inMap out st).steamCreatedPages =
        st.steamCreatedPages) ∧
    (∀ pid, out.createdPid = some pid →
      (applyRetry key inMap out st).steamMap = mapInsert key pid st.steamMap ∧
      (applyRetry key inMap out st).steamCreatedPages =
        st.steamCreatedPages ++ [⟨pid, [key]⟩]) := by
  constructor
  · intro h
    constructor <;> simp [applyRetry, h]
  · intro pid h
    constructor <;> simp [applyRetry, h]

theorem afterRate_steam_shape (key : String) (e : ItemEnv)
    (d : Option DetailData) (st : RunState) :
    ((afterRate key e d st).steamMap = st.steamMap ∧
      (afterRate key e d st).steamCreatedPages = st.steamCreatedPages) ∨
    (∃ pid, (afterRate key e d st).steamMap = mapInsert key pid st.steamMap ∧
      (afterRate key e d st).steamCreatedPages =
        st.steamCreatedPages ++ [⟨pid, [key]⟩]) := by
  unfold afterRate
  dsimp only
  split
  · exact Or.inl ⟨rfl, rfl⟩
  · obtain ⟨_, m2, _, _, m5, _, _, _⟩ :=
      mainSection_fields key e
        (notionRetryLoop ((mapLookup st.steamMap key).isSome)
          e.primaryAttempt).status
        (applyRetry key ((mapLookup st.steamMap key).isSome)
          (notionRetryLoop ((mapLookup st.steamMap key).isSome)
            e.primaryAttempt) st)
    cases hcp : (notionRetryLoop ((mapLookup st.steamMap key).isSome)
        e.primaryAttempt).createdPid with
    | none =>
      obtain ⟨h1, h2⟩ := (applyRetry_steam key _ _ st).1 hcp
      exact Or.inl ⟨m2.trans h1, m5.trans h2⟩
    | some pid =>
      obtain ⟨h1, h2⟩ := (applyRetry_steam key _ _ st).2 pid hcp
      exact Or.inr ⟨pid, m2.trans h1, m5.trans h2⟩

theorem processItem_steam_shape (details : Nat → Option DetailData)
    (env : Nat → ItemEnv) (st : RunState) (g : Game) :
    ((processItem details env st g).steamMap = st.steamMap ∧
      (processItem details env st g).steamCreatedPages =
        st.steamCreatedPages) ∨
    (∃ pid, (processItem details env st g).steamMap =
        mapInsert (toString g.appid) pid st.steamMap ∧
      (processItem details env st g).steamCreatedPages =
        st.steamCreatedPages ++ [⟨pid, [toString g.appid]⟩]) := by
  unfold processItem
  dsimp only
  split
  · exact afterRate_steam_shape _ _ _ _
  · split
    · exact afterRate_steam_shape _ _ _ _
    · exact Or.inl ⟨by simp [RunState.skipItem], by simp [RunState.skipItem]⟩
    · exact Or.inl ⟨by simp [RunState.skipItem], by simp [RunState.skipItem]⟩

theorem afterRate_mainCreated (key : String) (e : ItemEnv)
    (d : Option DetailData) (st : RunState) :
    ∃ l, (afterRate key e d st).mainCreatedPages =
      st.mainCreatedPages ++ l := by
  unfold afterRate
  dsimp only
  split
  · exact ⟨[], by simp⟩
  · obtain ⟨l, hl⟩ :=
      mainSection_mainCreated key e
        (notionRetryLoop ((mapLookup st.steamMap key).isSome)
          e.primaryAttempt).status
        (applyRetry key ((mapLookup st.steamMap key).isSome)
          (notionRetryLoop ((mapLookup st.steamMap key).isSome)
            e.primaryAttempt) st)
    rw [hl,
      (applyRetry_fields key ((mapLookup st.steamMap key).isSome)
        (notionRetryLoop ((mapLookup st.steamMap key).isSome)
          e.primaryAttempt) st).2.2.2.1]
    exact ⟨l, rfl⟩

theorem processItem_mainCreated_shape (details : Nat → Option DetailData)
    (env : Nat → ItemEnv) (st : RunState) (g : Game) :
    ∃ l, (processItem details env st g).mainCreatedPages =
      st.mainCreatedPages ++ l := by
  unfold processItem
  dsimp only
  split
  · exact afterRate_mainCreated _ _ _ _
  · split
    · exact afterRate_mainCreated _ _ _ _
    · exact ⟨[], by simp [RunState.skipItem]⟩
    · exact ⟨[], by simp [RunState.skipItem]⟩

/-- An item whose fetched detail lacks a cover url never mutates the steam or
main collections, never records an in-place update, and never advances the
steam or main identity maps — but the rate-collection claims above do not
hold for it (see the corresponding counterexample). -/
theorem processItem_noCover {details : Nat → Option DetailData} {g : Game}
    (h : coverOf (details g.appid) = "") (env : Nat → ItemEnv)
    (st : RunState) :
    (processItem details env st g).steamMap = st.steamMap ∧
    (processItem details env st g).mainMap = st.mainMap ∧
    (processItem details env st g).steamCreatedPages =
      st.steamCreatedPages ∧
    (processItem details env st g).steamUpdatedKeys = st.steamUpdatedKeys ∧
    (processItem details env st g).mainCreatedPages = st.mainCreatedPages := by
  unfold processItem
  dsimp only
  split
  · rw [afterRate_noCover h]
    exact ⟨rfl, rfl, rfl, rfl, rfl⟩
  · split
    · rw [afterRate_noCover h]
      exact ⟨rfl, rfl, rfl, rfl, rfl⟩
    · refine ⟨?_, ?_, ?_, ?_, ?_⟩ <;> simp [RunState.skipItem]
    · refine ⟨?_, ?_, ?_, ?_, ?_⟩ <;> simp [RunState.skipItem]

/-! ### Behaviour of the per-item engine when every mutation succeeds -/

theorem mainSection_ok {e : ItemEnv} {st : RunState} {key : String}
    (hr : (mapLookup st.rateMap key).isSome)
    (hs : (mapLookup st.steamMap key).isSome)
    (hm : ∃ p, e.mainCreateRes = CallResult.ok p) (status : Status) :
    (mainSection key e status st).success_count = st.success_count ∧
    (mainSection key e status st).fail_count = st.fail_count ∧
    (mainSection key e status st).skipped_count = st.skipped_count ∧
    (mainSection key e status st).statusLines = st.statusLines ++ [status] := by
  obtain ⟨mp, hmp⟩ := hm
  obtain ⟨rv, hrv⟩ := Option.isSome_iff_exists.mp hr
  obtain ⟨sv, hsv⟩ := Option.isSome_iff_exists.mp hs
  unfold mainSection
  cases hmm : mapLookup st.mainMap key with
  | some v => simp [RunState.addLine]
  | none =>
    rw [hrv, hsv, hmp]
    simp [RunState.addLine]

theorem mainSection_cov {e : ItemEnv} {st : RunState} {key : String}
    (hr : (mapLookup st.rateMap key).isSome)
    (hs : (mapLookup st.steamMap key).isSome)
    (hm : ∃ p, e.mainCreateRes = CallResult.ok p) (status : Status)
    (hkey : key ≠ "") :
    (mapLookup st.mainMap key).isSome ∨
      ∃ p ∈ (mainSection key e status st).mainCreatedPages,
        extractAppid p = some key := by
  obtain ⟨mp, hmp⟩ := hm
  obtain ⟨rv, hrv⟩ := Option.isSome_iff_exists.mp hr
  obtain ⟨sv, hsv⟩ := Option.isSome_iff_exists.mp hs
  cases hmm : mapLookup st.mainMap key with
  | some v => exact Or.inl rfl
  | none =>
    right
    unfold mainSection
    rw [hmm]
    rw [hrv, hsv, hmp]
    refine ⟨⟨mp, [key]⟩, ?_, ?_⟩
    · simp [RunState.addLine]
    · simp [extractAppid, hkey]

theorem afterRate_ok {e : ItemEnv} {st : RunState} {key : String}
    {d : Option DetailData} {sp : String}
    (hcov : coverOf d ≠ "") (hr : (mapLookup st.rateMap key).isSome)
    (hsp : e.primaryAttempt 1 = CallResult.ok sp)
    (hm : ∃ p, e.mainCreateRes = CallResult.ok p) (hkey : key ≠ "") :
    (afterRate key e d st).success_count = st.success_count + 1 ∧
    (afterRate key e d st).fail_count = st.fail_count ∧
    (afterRate key e d st).skipped_count = st.skipped_count ∧
    (afterRate key e d st).statusLines = st.statusLines ++ [Status.success] ∧
    (mapLookup (afterRate key e d st).steamMap key).isSome ∧
    ((mapLookup st.mainMap key).isSome ∨
      ∃ p ∈ (afterRate key e d st).mainCreatedPages,
        extractAppid p = some key) := by
  unfold afterRate
  rw [if_neg hcov]
  dsimp only
  rw [notionRetry_ok1 _ hsp]
  set c := (mapLookup st.steamMap key).isSome with hc
  set out : RetryOut :=
    ⟨Status.success, 1, 0, if c = true then none else some sp, 1, []⟩
    with hout
  have hr1 : (mapLookup (applyRetry key c out st).rateMap key).isSome := by
    rw [(applyRetry_fields key c out st).1]
    exact hr
  have hs1 : (mapLookup (applyRetry key c out st).steamMap key).isSome := by
    by_cases hcb : c = true
    · have hnone : out.createdPid = none := by rw [hout]; simp [hcb]
      rw [((applyRetry_steam key c out st).1 hnone).1]
      rw [hc] at hcb
      exact hcb
    · have hsome : out.createdPid = some sp := by rw [hout]; simp [hcb]
      rw [((applyRetry_steam key c out st).2 sp hsome).1]
      rw [mapLookup_insert_self]
      rfl
  obtain ⟨c1, c2, c3, c4⟩ := mainSection_ok hr1 hs1 hm out.status
  obtain ⟨_, m2, _, _, _, _, _, _⟩ :=
    mainSection_fields key e out.status (applyRetry key c out st)
  have hmain := mainSection_cov hr1 hs1 hm out.status hkey
  rw [(applyRetry_fields key c out st).2.1] at hmain
  have hstat : out.status = Status.success := by rw [hout]
  refine ⟨?_, ?_, ?_, ?_, ?_, ?_⟩
  · rw [c1]
    simp [applyRetry, hout]
  · rw [c2]
    simp [applyRetry, hout]
  · rw [c3]
    exact (applyRetry_fields key c out st).2.2.2.2.1
  · rw [c4, (applyRetry_fields key c out st).2.2.2.2.2, hstat]
  · rw [m2]
    exact hs1
  · exact hmain

theorem processItem_ok {details : Nat → Option DetailData}
    {env : Nat → ItemEnv} (hok : EnvAllOk env) (st : RunState) (g : Game) :
    (coverOf (details g.appid) = "" →
      (processItem details env st g).success_count = st.success_count ∧
      (processItem details env st g).fail_count = st.fail_count ∧
      (processItem details env st g).skipped_count = st.skipped_count ∧
      (processItem details env st g).statusLines = st.statusLines) ∧
    (coverOf (details g.appid) ≠ "" →
      (processItem details env st g).success_count = st.success_count + 1 ∧
      (processItem details env st g).fail_count = st.fail_count ∧
      (processItem details env st g).skipped_count = st.skipped_count ∧
      (processItem details env st g).statusLines =
        st.statusLines ++ [Status.success] ∧
      (mapLookup (processItem details env st g).steamMap
        (toString g.appid)).isSome ∧
      ((mapLookup st.mainMap (toString g.appid)).isSome ∨
        ∃ p ∈ (processItem details env st g).mainCreatedPages,
          extractAppid p = some (toString g.appid))) ∧
    (mapLookup (processItem details env st g).rateMap
      (toString g.appid)).isSome := by
  obtain ⟨⟨rp, hrp⟩, ⟨sp, hsp⟩, hm⟩ := hok g.appid
  have hkey := toString_nat_ne_empty g.appid
  unfold processItem
  dsimp only
  cases hrl : mapLookup st.rateMap (toString g.appid) with
  | some rv =>
    have hr : (mapLookup st.rateMap (toString g.appid)).isSome := by
      rw [hrl]; rfl
    refine ⟨?_, ?_, ?_⟩
    · intro hcov
      rw [afterRate_noCover hcov]
      exact ⟨rfl, rfl, rfl, rfl⟩
    · intro hcov
      exact afterRate_ok hcov hr hsp hm hkey
    · rw [(afterRate_fields _ _ _ _).1]
      exact hr
  | none =>
    rw [hrp]
    dsimp only
    set st1 : RunState :=
      { st with
          rateMap := mapInsert (toString g.appid) rp st.rateMap
          rateCreatedPages :=
            st.rateCreatedPages ++ [⟨rp, [toString g.appid]⟩] } with hst1
    have hr1 : (mapLookup st1.rateMap (toString g.appid)).isSome := by
      rw [hst1]
      dsimp only
      rw [mapLookup_insert_self]
      rfl
    refine ⟨?_, ?_, ?_⟩
    · intro hcov
      rw [afterRate_noCover hcov]
      exact ⟨rfl, rfl, rfl, rfl⟩
    · intro hcov
      have h := afterRate_ok hcov hr1 hsp hm hkey
      simpa [hst1] using h
    · rw [(afterRate_fields _ _ _ _).1]
      exact hr1

/-- Processing an item again when the cover is empty and the rate map already
knows its key is a complete no-op: the `continue` prints nothing and counts
nothing, and no section before it changes any state. -/
theorem processItem_noop_noCover {details : Nat → Option DetailData}
    {env : Nat → ItemEnv} {st : RunState} {g : Game}
    (h : coverOf (details g.appid) = "")
    (hr : (mapLookup st.rateMap (toString g.appid)).isSome) :
    processItem details env st g = st := by
  obtain ⟨rv, hrv⟩ := Option.isSome_iff_exists.mp hr
  unfold processItem
  dsimp only
  rw [hrv]
  dsimp only
  exact afterRate_noCover h _ _ _

/-- Processing an item whose key is already known to all three identity maps,
with the first mutation attempt succeeding, takes exactly the update-in-place
branch: one success, one status line, one recorded in-place update, and no
other state change. -/
theorem processItem_update {details : Nat → Option DetailData}
    {env : Nat → ItemEnv} {st : RunState} {g : Game} {sp : String}
    (hcov : coverOf (details g.appid) ≠ "")
    (hr : (mapLookup st.rateMap (toString g.appid)).isSome)
    (hs : (mapLookup st.steamMap (toString g.appid)).isSome)
    (hmm : (mapLookup st.mainMap (toString g.appid)).isSome)
    (hsp : (env g.appid).primaryAttempt 1 = CallResult.ok sp) :
    processItem details env st g =
      { st with
          success_count := st.success_count + 1
          statusLines := st.statusLines ++ [Status.success]
          steamUpdatedKeys := st.steamUpdatedKeys ++ [toString g.appid] } := by
  obtain ⟨rv, hrv⟩ := Option.isSome_iff_exists.mp hr
  obtain ⟨mv, hmv⟩ := Option.isSome_iff_exists.mp hmm
  unfold processItem
  dsimp only
  rw [hrv]
  dsimp only
  unfold afterRate
  rw [if_neg hcov]
  dsimp only
  rw [hs, notionRetry_ok1 _ hsp]
  unfold mainSection applyRetry
  dsimp only
  rw [hmv]
  simp [RunState.addLine]

/-! ### Run-level lemmas -/

theorem fold_counts_ok {details : Nat → Option DetailData}
    {env : Nat → ItemEnv} (hok : EnvAllOk env) :
    ∀ (games : List Game) (st : RunState),
      (games.foldl (processItem details env) st).success_count =
        st.success_count + (coveredItems details games).length ∧
      (games.foldl (processItem details env) st).fail_count =
        st.fail_count ∧
      (games.foldl (processItem details env) st).skipped_count =
        st.skipped_count ∧
      (games.foldl (processItem details env) st).statusLines.length =
        st.statusLines.length + (coveredItems details games).length
  | [], st => by simp [coveredItems]
  | g :: rest, st => by
    obtain ⟨hnc, hc, _⟩ := processItem_ok hok st g
    obtain ⟨i1, i2, i3, i4⟩ :=
      fold_counts_ok hok rest (processItem details env st g)
    rw [List.foldl_cons] at *
    by_cases hcov : coverOf (details g.appid) = ""
    · obtain ⟨e1, e2, e3, e4⟩ := hnc hcov
      have hfc : coveredItems details (g :: rest) =
          coveredItems details rest := by
        simp [coveredItems, List.filter_cons, hcov]
      rw [hfc]
      exact ⟨by rw [i1, e1], by rw [i2, e2], by rw [i3, e3],
        by rw [i4, e4]⟩
    · obtain ⟨e1, e2, e3, e4, _, _⟩ := hc hcov
      have hfc : coveredItems details (g :: rest) =
          g :: coveredItems details rest := by
        simp [coveredItems, List.filter_cons, hcov]
      rw [hfc]
      refine ⟨?_, by rw [i2, e2], by rw [i3, e3], ?_⟩
      · rw [i1, e1]
        simp [Nat.add_assoc, Nat.add_comm 1]
      · rw [i4, e4]
        simp [List.length_append, Nat.add_assoc, Nat.add_comm 1]

theorem fold_rate_isSome {details : Nat → Option DetailData}
    {env : Nat → ItemEnv} {k : String} :
    ∀ (games : List Game) (st : RunState),
      (mapLookup st.rateMap k).isSome →
      (mapLookup
        ((games.foldl (processItem details env) st)).rateMap k).isSome
  | [], _, h => h
  | g :: rest, st, h => by
    rw [List.foldl_cons]
    apply fold_rate_isSome rest
    rcases processItem_rate_shape details env st g with ⟨hm, _⟩ | ⟨pid, hm, _⟩
    · rw [hm]; exact h
    · rw [hm]; exact isSome_mapLookup_insert_of h _ _

theorem fold_steam_isSome {details : Nat → Option DetailData}
    {env : Nat → ItemEnv} {k : String} :
    ∀ (games : List Game) (st : RunState),
      (mapLookup st.steamMap k).isSome →
      (mapLookup
        ((games.foldl (processItem details env) st)).steamMap k).isSome
  | [], _, h => h
  | g :: rest, st, h => by
    rw [List.foldl_cons]
    apply fold_steam_isSome rest
    rcases processItem_steam_shape details env st g with ⟨hm, _⟩ | ⟨pid, hm, _⟩
    · rw [hm]; exact h
    · rw [hm]; exact isSome_mapLookup_insert_of h _ _

theorem fold_mainMap (details : Nat → Option DetailData)
    (env : Nat → ItemEnv) :
    ∀ (games : List Game) (st : RunState),
      (games.foldl (processItem details env) st).mainMap = st.mainMap
  | [], _ => rfl
  | g :: rest, st => by
    rw [List.foldl_cons, fold_mainMap details env rest,
      processItem_mainMap details env st g]

theorem fold_mainCreated_mono (details : Nat → Option DetailData)
    (env : Nat → ItemEnv) :
    ∀ (games : List Game) (st : RunState),
      ∃ l, (games.foldl (processItem details env) st).mainCreatedPages =
        st.mainCreatedPages ++ l
  | [], st => ⟨[], by simp⟩
  | g :: rest, st => by
    rw [List.foldl_cons]
    obtain ⟨l1, h1⟩ := processItem_mainCreated_shape details env st g
    obtain ⟨l2, h2⟩ :=
      fold_mainCreated_mono details env rest (processItem details env st g)
    exact ⟨l1 ++ l2, by rw [h2, h1, List.append_assoc]⟩

/-- After a run in which every issued mutation succeeds, every processed
item's key is bound in the in-memory rate map, and — when its detail has a
cover — in the steam map, and its key has a main page either pre-existing or
created during the run. -/
theorem fold_coverage (details : Nat → Option DetailData)
    {env : Nat → ItemEnv} (hok : EnvAllOk env) :
    ∀ (games : List Game) (st : RunState) (g : Game), g ∈ games →
      (mapLookup ((games.foldl (processItem details env) st)).rateMap
        (toString g.appid)).isSome ∧
      (coverOf (details g.appid) ≠ "" →
        (mapLookup ((games.foldl (processItem details env) st)).steamMap
          (toString g.appid)).isSome ∧
        ((mapLookup st.mainMap (toString g.appid)).isSome ∨
          ∃ p ∈ ((games.foldl (processItem details env) st)).mainCreatedPages,
            extractAppid p = some (toString g.appid)))
  | [], _, g, hg => absurd hg (List.not_mem_nil g)
  | a :: rest, st, g, hg => by
    rw [List.foldl_cons]
    rcases List.mem_cons.mp hg with hga | hgrest
    · subst hga
      obtain ⟨_, hc, hrate⟩ := processItem_ok hok st g
      refine ⟨fold_rate_isSome rest _ hrate, ?_⟩
      intro hcov
      obtain ⟨_, _, _, _, hsteam, hmain⟩ := hc hcov
      refine ⟨fold_steam_isSome rest _ hsteam, ?_⟩
      rcases hmain with hl | ⟨p, hp, hpk⟩
      · exact Or.inl hl
      · right
        obtain ⟨l, hlres⟩ :=
          fold_mainCreated_mono details env rest (processItem details env st g)
        exact ⟨p, by rw [hlres]; exact List.mem_append_left l hp, hpk⟩
    · have h := fold_coverage details hok rest (processItem details env st a) g hgrest
      rwa [processItem_mainMap details env st a] at h

theorem step_rate_inv {details : Nat → Option DetailData}
    {env : Nat → ItemEnv} {base : List Page} {st : RunState} (g : Game)
    (hinv : ∀ k, (mapLookup st.rateMap k).isSome →
      (∃ p ∈ base, extractAppid p = some k) ∨
      (∃ p ∈ st.rateCreatedPages, extractAppid p = some k)) :
    ∀ k, (mapLookup (processItem details env st g).rateMap k).isSome →
      (∃ p ∈ base, extractAppid p = some k) ∨
      (∃ p ∈ (processItem details env st g).rateCreatedPages,
        extractAppid p = some k) := by
  intro k hk
  rcases processItem_rate_shape details env st g with ⟨hm, hp⟩ | ⟨pid, hm, hp⟩
  · rw [hm] at hk
    rw [hp]
    exact hinv k hk
  · rw [hm] at hk
    rcases (isSome_mapLookup_insert _ _ _ _).mp hk with heq | hold
    · right
      refine ⟨⟨pid, [toString g.appid]⟩, ?_, ?_⟩
      · rw [hp]
        exact List.mem_append_right _ (List.mem_singleton.mpr rfl)
      · subst heq
        simp [extractAppid, toString_nat_ne_empty g.appid]
    · rcases hinv k hold with hb | ⟨p, hpmem, hpk⟩
      · exact Or.inl hb
      · exact Or.inr ⟨p, by rw [hp]; exact List.mem_append_left _ hpmem, hpk⟩

theorem step_steam_inv {details : Nat → Option DetailData}
    {env : Nat → ItemEnv} {base : List Page} {st : RunState} (g : Game)
    (hinv : ∀ k, (mapLookup st.steamMap k).isSome →
      (∃ p ∈ base, extractAppid p = some k) ∨
      (∃ p ∈ st.steamCreatedPages, extractAppid p = some k)) :
    ∀ k, (mapLookup (processItem details env st g).steamMap k).isSome →
      (∃ p ∈ base, extractAppid p = some k) ∨
      (∃ p ∈ (processItem details env st g).steamCreatedPages,
        extractAppid p = some k) := by
  intro k hk
  rcases processItem_steam_shape details env st g with ⟨hm, hp⟩ | ⟨pid, hm, hp⟩
  · rw [hm] at hk
    rw [hp]
    exact hinv k hk
  · rw [hm] at hk
    rcases (isSome_mapLookup_insert _ _ _ _).mp hk with heq | hold
    · right
      refine ⟨⟨pid, [toString g.appid]⟩, ?_, ?_⟩
      · rw [hp]
        exact List.mem_append_right _ (List.mem_singleton.mpr rfl)
      · subst heq
        simp [extractAppid, toString_nat_ne_empty g.appid]
    · rcases hinv k hold with hb | ⟨p, hpmem, hpk⟩
      · exact Or.inl hb
      · exact Or.inr ⟨p, by rw [hp]; exact List.mem_append_left _ hpmem, hpk⟩

theorem fold_rate_inv {details : Nat → Option DetailData}
    {env : Nat → ItemEnv} {base : List Page} :
    ∀ (games : List Game) (st : RunState),
      (∀ k, (mapLookup st.rateMap k).isSome →
        (∃ p ∈ base, extractAppid p = some k) ∨
        (∃ p ∈ st.rateCreatedPages, extractAppid p = some k)) →
      ∀ k, (mapLookup
          ((games.foldl (processItem details env) st)).rateMap k).isSome →
        (∃ p ∈ base, extractAppid p = some k) ∨
        (∃ p ∈ ((games.foldl
            (processItem details env) st)).rateCreatedPages,
          extractAppid p = some k)
  | [], _, hinv => hinv
  | g :: rest, st, hinv => by
    rw [List.foldl_cons]
    exact fold_rate_inv rest _ (step_rate_inv g hinv)

theorem fold_steam_inv {details : Nat → Option DetailData}
    {env : Nat → ItemEnv} {base : List Page} :
    ∀ (games : List Game) (st : RunState),
      (∀ k, (mapLookup st.steamMap k).isSome →
        (∃ p ∈ base, extractAppid p = some k) ∨
        (∃ p ∈ st.steamCreatedPages, extractAppid p = some k)) →
      ∀ k, (mapLookup
          ((games.foldl (processItem details env) st)).steamMap k).isSome →
        (∃ p ∈ base, extractAppid p = some k) ∨
        (∃ p ∈ ((games.foldl
            (processItem details env) st)).steamCreatedPages,
          extractAppid p = some k)
  | [], _, hinv => hinv
  | g :: rest, st, hinv => by
    rw [List.foldl_cons]
    exact fold_steam_inv rest _ (step_steam_inv g hinv)

/-- A run whose items all have their keys bound in every relevant identity
map, with all mutations succeeding, creates nothing anywhere and records
exactly one in-place update per cover-carrying item, in order. -/
theorem fold_noop {details : Nat → Option DetailData}
    {env : Nat → ItemEnv} (hok : EnvAllOk env) :
    ∀ (games : List Game) (st : RunState),
      (∀ g ∈ games, (mapLookup st.rateMap (toString g.appid)).isSome ∧
        (coverOf (details g.appid) ≠ "" →
          (mapLookup st.steamMap (toString g.appid)).isSome ∧
          (mapLookup st.mainMap (toString g.appid)).isSome)) →
      (games.foldl (processItem details env) st).rateCreatedPages =
        st.rateCreatedPages ∧
      (games.foldl (processItem details env) st).steamCreatedPages =
        st.steamCreatedPages ∧
      (games.foldl (processItem details env) st).mainCreatedPages =
        st.mainCreatedPages ∧
      (games.foldl (processItem details env) st).steamUpdatedKeys =
        st.steamUpdatedKeys ++
          (coveredItems details games).map (fun g => toString g.appid)
  | [], st, _ => by simp [coveredItems]
  | g :: rest, st, h => by
    obtain ⟨hr, hcv⟩ := h g (List.mem_cons_self g rest)
    rw [List.foldl_cons]
    by_cases hcov : coverOf (details g.appid) = ""
    · rw [processItem_noop_noCover hcov hr]
      have hrest := fold_noop hok rest st
        (fun q hq => h q (List.mem_cons_of_mem _ hq))
      have hfc : coveredItems details (g :: rest) =
          coveredItems details rest := by
        simp [coveredItems, List.filter_cons, hcov]
      rw [hfc]
      exact hrest
    · obtain ⟨hs, hmm⟩ := hcv hcov
      obtain ⟨sp, hsp⟩ := (hok g.appid).2.1
      rw [processItem_update hcov hr hs hmm hsp]
      have hrest := fold_noop hok rest
        { st with
            success_count := st.success_count + 1
            statusLines := st.statusLines ++ [Status.success]
            steamUpdatedKeys := st.steamUpdatedKeys ++ [toString g.appid] }
        (fun q hq => h q (List.mem_cons_of_mem _ hq))
      obtain ⟨r1, r2, r3, r4⟩ := hrest
      have hfc : coveredItems details (g :: rest) =
          g :: coveredItems details rest := by
        simp [coveredItems, List.filter_cons, hcov]
      rw [hfc]
      refine ⟨r1, r2, r3, ?_⟩
      rw [r4]
      simp [List.append_assoc]

/-! ### Claim theorems -/

/-- Claim C5: for each primary destination mutation, a connection-level
failure is retried up to the fixed cap (5) with linear backoff
`NOTION_DELAY * attempt`; exhausting the retries records the item as Failed;
a non-connection exception aborts the loop immediately with Failed; a
successful mutation records Succeeded. -/
theorem claim_C5 (inMap : Bool) (oracle : Nat → CallResult) :
    ((∀ i, 1 ≤ i → i ≤ NOTION_RETRY_TIMES → oracle i = CallResult.connErr) →
      notionRetryLoop inMap oracle =
        ⟨Status.failConn, 0, 1, none, NOTION_RETRY_TIMES,
          [NOTION_DELAY * 1, NOTION_DELAY * 2, NOTION_DELAY * 3,
            NOTION_DELAY * 4]⟩) ∧
    (∀ k m, 1 ≤ k → k ≤ NOTION_RETRY_TIMES →
      (∀ i, 1 ≤ i → i < k → oracle i = CallResult.connErr) →
      oracle k = CallResult.otherErr m →
      (notionRetryLoop inMap oracle).status = Status.failOther m ∧
      (notionRetryLoop inMap oracle).succInc = 0 ∧
      (notionRetryLoop inMap oracle).failInc = 1 ∧
      (notionRetryLoop inMap oracle).attempts = k) ∧
    (∀ k pid, 1 ≤ k → k ≤ NOTION_RETRY_TIMES →
      (∀ i, 1 ≤ i → i < k → oracle i = CallResult.connErr) →
      oracle k = CallResult.ok pid →
      (notionRetryLoop inMap oracle).status = Status.success ∧
      (notionRetryLoop inMap oracle).succInc = 1 ∧
      (notionRetryLoop inMap oracle).failInc = 0 ∧
      (notionRetryLoop inMap oracle).attempts = k) := by
  refine ⟨fun h => notionRetry_all_conn inMap h, ?_, ?_⟩
  · intro k m hk1 hk5 hbefore hk
    obtain ⟨a1, a2, a3, _, a5⟩ :=
      notionRetry_first_other inMap k m hk1 hk5 hbefore hk
    exact ⟨a1, a2, a3, a5⟩
  · intro k pid hk1 hk5 hbefore hk
    exact notionRetry_first_ok inMap k pid hk1 hk5 hbefore hk

/-- Concrete instantiations of claim C5: all-connection-failure run, an
other-error abort at attempt 2, and a success at attempt 2. -/
theorem claim_C5_witness :
    notionRetryLoop true (fun _ => CallResult.connErr) =
      ⟨Status.failConn, 0, 1, none, NOTION_RETRY_TIMES,
        [NOTION_DELAY * 1, NOTION_DELAY * 2, NOTION_DELAY * 3,
          NOTION_DELAY * 4]⟩ ∧
    ((notionRetryLoop true
        (fun i => if i = 2 then CallResult.otherErr "boom"
          else CallResult.connErr)).status = Status.failOther "boom" ∧
      (notionRetryLoop true
        (fun i => if i = 2 then CallResult.otherErr "boom"
          else CallResult.connErr)).succInc = 0 ∧
      (notionRetryLoop true
        (fun i => if i = 2 then CallResult.otherErr "boom"
          else CallResult.connErr)).failInc = 1 ∧
      (notionRetryLoop true
        (fun i => if i = 2 then CallResult.otherErr "boom"
          else CallResult.connErr)).attempts = 2) ∧
    ((notionRetryLoop false
        (fun i => if i = 2 then CallResult.ok "p"
          else CallResult.connErr)).status = Status.success ∧
      (notionRetryLoop false
        (fun i => if i = 2 then CallResult.ok "p"
          else CallResult.connErr)).succInc = 1 ∧
      (notionRetryLoop false
        (fun i => if i = 2 then CallResult.ok "p"
          else CallResult.connErr)).failInc = 0 ∧
      (notionRetryLoop false
        (fun i => if i = 2 then CallResult.ok "p"
          else CallResult.connErr)).attempts = 2) :=
  ⟨(claim_C5 true (fun _ => CallResult.connErr)).1 (fun _ _ _ => rfl),
   (claim_C5 true
      (fun i => if i = 2 then CallResult.otherErr "boom"
        else CallResult.connErr)).2.1 2 "boom" (by decide) (by decide)
      (fun i h1 h2 => by
        have hi : i = 1 := by omega
        subst hi
        rfl)
      rfl,
   (claim_C5 false
      (fun i => if i = 2 then CallResult.ok "p"
        else CallResult.connErr)).2.2 2 "p" (by decide) (by decide)
      (fun i h1 h2 => by
        have hi : i = 1 := by omega
        subst hi
        rfl)
      rfl⟩

/-- Claim C6: a details fetch whose every attempt raises performs exactly
`STEAM_RETRY_TIMES = 5` attempts, sleeps `REQUEST_DELAY * attempt` after each
failed attempt (so the delays between attempts are 2, 4, 6, 8 — the loop also
sleeps once more after the final failure), then returns the empty result `{}`
to the caller instead of propagating the exception (the model is a total
function, so no exception can escape). -/
theorem claim_C6 (appid : Nat) (oracle : Nat → Option SteamData)
    (h : ∀ i, oracle i = none) :
    get_game_details_with_cover appid oracle =
      (none, 5, [2, 4, 6, 8, 10]) := by
  rw [get_game_details_with_cover,
    (rfl : List.range' 1 STEAM_RETRY_TIMES = [1, 2, 3, 4, 5])]
  simp [detailsGo, h 1, h 2, h 3, h 4, h 5, REQUEST_DELAY]

/-- Concrete instantiation of claim C6 at the always-raising oracle. -/
theorem claim_C6_witness :
    get_game_details_with_cover 440 (fun _ => none) =
      (none, 5, [2, 4, 6, 8, 10]) :=
  claim_C6 440 (fun _ => none) (fun _ => rfl)

/-- Claim C7 counterexample: when every attempt raises,
`get_game_achievements` returns the empty dict `{}` (line 288 of
src/main.py), not the empty list the claim promises — a value of a different
type. -/
theorem claim_C7_counterexample :
    (get_game_achievements (fun _ => none)).1 = AchFetchResult.emptyDict ∧
    (get_game_achievements (fun _ => none)).1 ≠ AchFetchResult.lst [] := by
  decide

/-- Claim C7 (amended): `get_game_achievements` never propagates the
exception: a run whose every attempt raises performs the full 5 attempts and
returns the falsy empty dict `{}` — not a list — which the caller's
`calculate_achievement_rate` treats exactly like an empty list (both are
falsy), yielding the zero statistics. -/
theorem claim_C7_amended (oracle : Nat → Option (List Ach))
    (h : ∀ i, oracle i = none) :
    get_game_achievements oracle =
      (AchFetchResult.emptyDict, 5, [2, 4, 6, 8, 10]) ∧
    (get_game_achievements oracle).1.toAchList = [] ∧
    calculate_achievement_rate (get_game_achievements oracle).1.toAchList =
      { total := 0, unlocked := 0, rate := 0 } := by
  have he : get_game_achievements oracle =
      (AchFetchResult.emptyDict, 5, [2, 4, 6, 8, 10]) := by
    rw [get_game_achievements,
      (rfl : List.range' 1 STEAM_RETRY_TIMES = [1, 2, 3, 4, 5])]
    simp [achGo, h 1, h 2, h 3, h 4, h 5, REQUEST_DELAY]
  rw [he]
  exact ⟨rfl, rfl, rfl⟩

/-- Concrete instantiation of amended claim C7 at the always-raising
oracle. -/
theorem claim_C7_amended_witness :
    get_game_achievements (fun _ => none) =
      (AchFetchResult.emptyDict, 5, [2, 4, 6, 8, 10]) ∧
    (get_game_achievements (fun _ => none)).1.toAchList = [] ∧
    calculate_achievement_rate
        (get_game_achievements (fun _ => none)).1.toAchList =
      { total := 0, unlocked := 0, rate := 0 } :=
  claim_C7_amended (fun _ => none) (fun _ => rfl)

/-- Claim C8: `calculate_achievement_rate` is a pure total function that
never divides by zero: the total is the list length, the unlocked count is
the number of entries whose achieved flag equals 1, the rate is their exact
quotient (0 on the empty list), and the two concrete examples of the spec
evaluate as stated (`rate = 2/3 ≈ 0.667`). -/
theorem claim_C8 :
    (∀ achievements : List Ach,
      (calculate_achievement_rate achievements).total =
        achievements.length ∧
      (calculate_achievement_rate achievements).unlocked =
        (achievements.filter (fun a => a.achieved == 1)).length ∧
      (calculate_achievement_rate achievements).rate =
        (if achievements.length = 0 then 0
          else ((achievements.filter
              (fun a => a.achieved == 1)).length : ℚ) /
            (achievements.length : ℚ))) ∧
    calculate_achievement_rate [] = { total := 0, unlocked := 0, rate := 0 } ∧
    calculate_achievement_rate [⟨1⟩, ⟨0⟩, ⟨1⟩] =
      { total := 3, unlocked := 2, rate := 2 / 3 } := by
  refine ⟨?_, rfl, ?_⟩
  · intro achievements
    unfold calculate_achievement_rate
    by_cases hl : achievements = []
    · subst hl
      simp
    · have hlen : achievements.length ≠ 0 := by
        simpa [List.length_eq_zero] using hl
      have hpos : 0 < achievements.length := Nat.pos_of_ne_zero hlen
      simp [hl, hlen, hpos]
  · unfold calculate_achievement_rate
    norm_num [List.filter, show ((1 : Int) == 1) = true from rfl,
      show ((0 : Int) == 1) = false from rfl]
    decide

/-- Claim C9: the tag filtering excludes the whole exclusion vocabulary,
drops tags of length ≥ 20 and empty tags, deduplicates, caps at `MAX_TAGS`,
and on the spec's concrete input the resulting tag set is exactly
`{动作, 冒险}`, order-independently. -/
theorem claim_C9 :
    (∀ genres categories tag, tag ∈ zhTags genres categories →
      tag ∉ EXCLUDE_TAGS ∧ tag.length < 20 ∧ tag ≠ "") ∧
    (∀ genres categories, (zhTags genres categories).Nodup ∧
      (zhTags genres categories).length ≤ MAX_TAGS) ∧
    (∀ tag, tag ∈ zhTags [] ["集换式卡牌", "动作", "冒险"] ↔
      (tag = "动作" ∨ tag = "冒险")) := by
  refine ⟨?_, ?_, ?_⟩
  · intro genres categories tag htag
    have h1 : tag ∈ (validTags genres categories).dedup :=
      List.take_subset _ _ htag
    have h2 : tag ∈ validTags genres categories := List.mem_dedup.mp h1
    have h3 := List.of_mem_filter h2
    have h4 := of_decide_eq_true h3
    exact ⟨h4.2.1, h4.2.2, h4.1⟩
  · intro genres categories
    refine ⟨?_, List.length_take_le _ _⟩
    exact List.Nodup.sublist (List.take_sublist _ _) (List.nodup_dedup _)
  · have hconc : zhTags [] ["集换式卡牌", "动作", "冒险"] =
        ["动作", "冒险"] := by decide
    intro tag
    rw [hconc]
    simp

/-- Concrete instantiation of claim C9's filtering bound at a tag of the
spec's example. -/
theorem claim_C9_witness :
    "动作" ∈ zhTags [] ["集换式卡牌", "动作", "冒险"] ∧
    ("动作" ∉ EXCLUDE_TAGS ∧ ("动作" : String).length < 20 ∧
      ("动作" : String) ≠ "") :=
  ⟨by decide,
   claim_C9.1 [] ["集换式卡牌", "动作", "冒险"] "动作" (by decide)⟩

/-- Claim C10: on a successful owned-games response, `get_steam_games`
returns the games sorted by `playtime_forever` descending; a game with no
playtime field sorts with key 0. -/
theorem claim_C10 (oracle : Nat → SteamApiResp) (gs : List Game)
    (h : oracle 1 = SteamApiResp.ok gs) :
    get_steam_games oracle = sortOwnedGames gs ∧
    List.Sorted playDesc (get_steam_games oracle) ∧
    (get_steam_games oracle).Perm gs ∧
    (∀ g : Game, g.playtime_forever = none → playKey g = 0) := by
  have he : get_steam_games oracle = sortOwnedGames gs := by
    rw [get_steam_games,
      (rfl : List.range' 1 STEAM_RETRY_TIMES = [1, 2, 3, 4, 5])]
    simp [steamGamesGo, h]
  refine ⟨he, ?_, ?_, ?_⟩
  · rw [he]
    exact List.sorted_insertionSort playDesc gs
  · rw [he]
    exact List.perm_insertionSort playDesc gs
  · intro g hg
    simp [playKey, hg]

/-- Concrete instantiation of claim C10 at a two-game response. -/
theorem claim_C10_witness :
    get_steam_games (fun _ => SteamApiResp.ok
        [⟨1, some 5, none⟩, ⟨2, some 9, none⟩]) =
      sortOwnedGames [⟨1, some 5, none⟩, ⟨2, some 9, none⟩] ∧
    List.Sorted playDesc (get_steam_games (fun _ => SteamApiResp.ok
        [⟨1, some 5, none⟩, ⟨2, some 9, none⟩])) ∧
    (get_steam_games (fun _ => SteamApiResp.ok
        [⟨1, some 5, none⟩, ⟨2, some 9, none⟩])).Perm
      [⟨1, some 5, none⟩, ⟨2, some 9, none⟩] ∧
    (∀ g : Game, g.playtime_forever = none → playKey g = 0) :=
  claim_C10 (fun _ => SteamApiResp.ok
      [⟨1, some 5, none⟩, ⟨2, some 9, none⟩])
    [⟨1, some 5, none⟩, ⟨2, some 9, none⟩] rfl

/-- Claim C1 counterexample: an item whose fetched detail has an empty
`cover_url`, processed against empty collections with all mutations
succeeding, still issues a create in the secondary (rate) collection and
advances the rate identity map — the rate-stub section (src/main.py lines
386-400) runs before the cover check (line 405), so the claim's "no
destination mutation in any collection and no identity map advanced" is
false. -/
theorem claim_C1_counterexample :
    (processItem (fun _ => some ⟨"G", "", "", [], [], none, 0⟩)
        (fun _ => ⟨CallResult.ok "rp", fun _ => CallResult.ok "sp",
          CallResult.ok "mp"⟩)
        (initState ⟨[], [], []⟩) ⟨10, none, none⟩).rateCreatedPages =
      [⟨"rp", ["10"]⟩] ∧
    mapLookup (processItem (fun _ => some ⟨"G", "", "", [], [], none, 0⟩)
        (fun _ => ⟨CallResult.ok "rp", fun _ => CallResult.ok "sp",
          CallResult.ok "mp"⟩)
        (initState ⟨[], [], []⟩) ⟨10, none, none⟩).rateMap "10" =
      some "rp" ∧
    coverOf ((fun _ : Nat => some
        (⟨"G", "", "", [], [], none, 0⟩ : DetailData)) 10) = "" := by
  decide

/-- Claim C1 (amended): an item whose fetched `EnrichedDetail` has an empty
or absent cover url performs no mutation in the primary (steam) or combined
(main) collections, records no in-place update, and advances neither the
primary nor the combined identity map — but the secondary (rate) stub
creation and its map advance happen before the cover check, so they are not
prevented. -/
theorem claim_C1_amended (details : Nat → Option DetailData)
    (env : Nat → ItemEnv) (st : RunState) (g : Game)
    (h : coverOf (details g.appid) = "") :
    (processItem details env st g).steamCreatedPages =
      st.steamCreatedPages ∧
    (processItem details env st g).steamUpdatedKeys = st.steamUpdatedKeys ∧
    (processItem details env st g).mainCreatedPages = st.mainCreatedPages ∧
    (processItem details env st g).steamMap = st.steamMap ∧
    (processItem details env st g).mainMap = st.mainMap := by
  obtain ⟨h1, h2, h3, h4, h5⟩ := processItem_noCover h env st
  exact ⟨h3, h4, h5, h1, h2⟩

/-- Concrete instantiation of amended claim C1 at a no-cover item. -/
theorem claim_C1_amended_witness :
    coverOf ((fun _ : Nat => some
        (⟨"G", "", "", [], [], none, 0⟩ : DetailData))
      (⟨10, none, none⟩ : Game).appid) = "" ∧
    ((processItem (fun _ => some ⟨"G", "", "", [], [], none, 0⟩)
        (fun _ => ⟨CallResult.ok "rp", fun _ => CallResult.ok "sp",
          CallResult.ok "mp"⟩)
        (initState ⟨[], [], []⟩) ⟨10, none, none⟩).steamCreatedPages =
      (initState ⟨[], [], []⟩).steamCreatedPages ∧
    (processItem (fun _ => some ⟨"G", "", "", [], [], none, 0⟩)
        (fun _ => ⟨CallResult.ok "rp", fun _ => CallResult.ok "sp",
          CallResult.ok "mp"⟩)
        (initState ⟨[], [], []⟩) ⟨10, none, none⟩).steamUpdatedKeys =
      (initState ⟨[], [], []⟩).steamUpdatedKeys ∧
    (processItem (fun _ => some ⟨"G", "", "", [], [], none, 0⟩)
        (fun _ => ⟨CallResult.ok "rp", fun _ => CallResult.ok "sp",
          CallResult.ok "mp"⟩)
        (initState ⟨[], [], []⟩) ⟨10, none, none⟩).mainCreatedPages =
      (initState ⟨[], [], []⟩).mainCreatedPages ∧
    (processItem (fun _ => some ⟨"G", "", "", [], [], none, 0⟩)
        (fun _ => ⟨CallResult.ok "rp", fun _ => CallResult.ok "sp",
          CallResult.ok "mp"⟩)
        (initState ⟨[], [], []⟩) ⟨10, none, none⟩).steamMap =
      (initState ⟨[], [], []⟩).steamMap ∧
    (processItem (fun _ => some ⟨"G", "", "", [], [], none, 0⟩)
        (fun _ => ⟨CallResult.ok "rp", fun _ => CallResult.ok "sp",
          CallResult.ok "mp"⟩)
        (initState ⟨[], [], []⟩) ⟨10, none, none⟩).mainMap =
      (initState ⟨[], [], []⟩).mainMap) :=
  ⟨rfl, claim_C1_amended _ _ _ _ rfl⟩

/-- Claim C2 counterexample: the spec's own two-item end-to-end run (one item
with complete detail and all mutations succeeding, one item with no cover
image) ends with succeeded = 1, failed = 0 but skipped = 0 — not skipped = 1
— and only one status line for two items, because the empty-cover `continue`
(src/main.py line 405) bypasses both the status line and every counter, so
succeeded + failed + skipped ≠ n. -/
theorem claim_C2_counterexample :
    (import_to_notion
        (fun a => if a = 1 then some ⟨"G", "https://x", "", [], [], none, 0⟩
          else some ⟨"G", "", "", [], [], none, 0⟩)
        (fun _ => ⟨CallResult.ok "rp", fun _ => CallResult.ok "sp",
          CallResult.ok "mp"⟩)
        ⟨[], [], []⟩
        [⟨1, some 60, none⟩, ⟨2, some 0, none⟩]).success_count = 1 ∧
    (import_to_notion
        (fun a => if a = 1 then some ⟨"G", "https://x", "", [], [], none, 0⟩
          else some ⟨"G", "", "", [], [], none, 0⟩)
        (fun _ => ⟨CallResult.ok "rp", fun _ => CallResult.ok "sp",
          CallResult.ok "mp"⟩)
        ⟨[], [], []⟩
        [⟨1, some 60, none⟩, ⟨2, some 0, none⟩]).fail_count = 0 ∧
    (import_to_notion
        (fun a => if a = 1 then some ⟨"G", "https://x", "", [], [], none, 0⟩
          else some ⟨"G", "", "", [], [], none, 0⟩)
        (fun _ => ⟨CallResult.ok "rp", fun _ => CallResult.ok "sp",
          CallResult.ok "mp"⟩)
        ⟨[], [], []⟩
        [⟨1, some 60, none⟩, ⟨2, some 0, none⟩]).skipped_count = 0 ∧
    (import_to_notion
        (fun a => if a = 1 then some ⟨"G", "https://x", "", [], [], none, 0⟩
          else some ⟨"G", "", "", [], [], none, 0⟩)
        (fun _ => ⟨CallResult.ok "rp", fun _ => CallResult.ok "sp",
          CallResult.ok "mp"⟩)
        ⟨[], [], []⟩
        [⟨1, some 60, none⟩, ⟨2, some 0, none⟩]).skipped_count ≠ 1 ∧
    (import_to_notion
        (fun a => if a = 1 then some ⟨"G", "https://x", "", [], [], none, 0⟩
          else some ⟨"G", "", "", [], [], none, 0⟩)
        (fun _ => ⟨CallResult.ok "rp", fun _ => CallResult.ok "sp",
          CallResult.ok "mp"⟩)
        ⟨[], [], []⟩
        [⟨1, some 60, none⟩, ⟨2, some 0, none⟩]).statusLines.length ≠
      [(⟨1, some 60, none⟩ : Game), ⟨2, some 0, none⟩].length := by
  decide

/-- Claim C2 (amended): in a run in which every issued destination mutation
succeeds, exactly the items whose fetched detail carries a cover url produce
a status line and a counter unit (always a success), while empty-cover items
produce neither, so at run end
succeeded = #covered items, failed = 0, skipped = 0 and the number of status
lines equals the number of covered items; the spec's two-item run therefore
ends succeeded = 1, failed = 0, skipped = 0 with one status line. -/
theorem claim_C2_amended (details : Nat → Option DetailData)
    (env : Nat → ItemEnv) (D : DestState) (games : List Game)
    (hok : EnvAllOk env) :
    (import_to_notion details env D games).success_count =
      (coveredItems details games).length ∧
    (import_to_notion details env D games).fail_count = 0 ∧
    (import_to_notion details env D games).skipped_count = 0 ∧
    (import_to_notion details env D games).statusLines.length =
      (coveredItems details games).length := by
  obtain ⟨h1, h2, h3, h4⟩ := fold_counts_ok hok games (initState D)
  rw [import_to_notion]
  exact ⟨by simpa [initState] using h1, by simpa [initState] using h2,
    by simpa [initState] using h3, by simpa [initState] using h4⟩

/-- Concrete instantiation of amended claim C2 at the spec's two-item run. -/
theorem claim_C2_amended_witness :
    EnvAllOk (fun _ => ⟨CallResult.ok "rp", fun _ => CallResult.ok "sp",
      CallResult.ok "mp"⟩) ∧
    (coveredItems
        (fun a => if a = 1 then some ⟨"G", "https://x", "", [], [], none, 0⟩
          else some ⟨"G", "", "", [], [], none, 0⟩)
        [⟨1, some 60, none⟩, ⟨2, some 0, none⟩]).length = 1 ∧
    ((import_to_notion
        (fun a => if a = 1 then some ⟨"G", "https://x", "", [], [], none, 0⟩
          else some ⟨"G", "", "", [], [], none, 0⟩)
        (fun _ => ⟨CallResult.ok "rp", fun _ => CallResult.ok "sp",
          CallResult.ok "mp"⟩)
        ⟨[], [], []⟩
        [⟨1, some 60, none⟩, ⟨2, some 0, none⟩]).success_count =
      (coveredItems
        (fun a => if a = 1 then some ⟨"G", "https://x", "", [], [], none, 0⟩
          else some ⟨"G", "", "", [], [], none, 0⟩)
        [⟨1, some 60, none⟩, ⟨2, some 0, none⟩]).length ∧
    (import_to_notion
        (fun a => if a = 1 then some ⟨"G", "https://x", "", [], [], none, 0⟩
          else some ⟨"G", "", "", [], [], none, 0⟩)
        (fun _ => ⟨CallResult.ok "rp", fun _ => CallResult.ok "sp",
          CallResult.ok "mp"⟩)
        ⟨[], [], []⟩
        [⟨1, some 60, none⟩, ⟨2, some 0, none⟩]).fail_count = 0 ∧
    (import_to_notion
        (fun a => if a = 1 then some ⟨"G", "https://x", "", [], [], none, 0⟩
          else some ⟨"G", "", "", [], [], none, 0⟩)
        (fun _ => ⟨CallResult.ok "rp", fun _ => CallResult.ok "sp",
          CallResult.ok "mp"⟩)
        ⟨[], [], []⟩
        [⟨1, some 60, none⟩, ⟨2, some 0, none⟩]).skipped_count = 0 ∧
    (import_to_notion
        (fun a => if a = 1 then some ⟨"G", "https://x", "", [], [], none, 0⟩
          else some ⟨"G", "", "", [], [], none, 0⟩)
        (fun _ => ⟨CallResult.ok "rp", fun _ => CallResult.ok "sp",
          CallResult.ok "mp"⟩)
        ⟨[], [], []⟩
        [⟨1, some 60, none⟩, ⟨2, some 0, none⟩]).statusLines.length =
      (coveredItems
        (fun a => if a = 1 then some ⟨"G", "https://x", "", [], [], none, 0⟩
          else some ⟨"G", "", "", [], [], none, 0⟩)
        [⟨1, some 60, none⟩, ⟨2, some 0, none⟩]).length) :=
  ⟨fun _ => ⟨⟨"rp", rfl⟩, ⟨"sp", rfl⟩, ⟨"mp", rfl⟩⟩,
   by decide,
   claim_C2_amended _ _ _ _
     (fun _ => ⟨⟨"rp", rfl⟩, ⟨"sp", rfl⟩, ⟨"mp", rfl⟩⟩)⟩

/-- Claim C3 counterexample: two pages carrying the same identity key "1" in
scan order resolve to the second page's id — the dict assignment overwrites,
so the map prefers the last-seen record, not the first-seen one the claim
demands. -/
theorem claim_C3_counterexample :
    mapLookup (create_appid_map_for_pages
      [⟨"a", ["1"]⟩, ⟨"b", ["1"]⟩]) "1" = some "b" ∧
    mapLookup (create_appid_map_for_pages
      [⟨"a", ["1"]⟩, ⟨"b", ["1"]⟩]) "1" ≠ some "a" := by
  decide

/-- Claim C3 (amended): `create_appid_map_for_pages` returns a mapping with
at most one record id per identity key, and when several records carry the
same non-empty key it deterministically maps the key to the record id of the
last-seen such record in scan order. -/
theorem claim_C3_amended (l₁ : List Page) (p : Page) (l₂ : List Page)
    (k : String) (hp : extractAppid p = some k)
    (h₂ : ∀ q ∈ l₂, extractAppid q ≠ some k) :
    (∀ (ps : List Page) (k' v₁ v₂ : String),
      mapLookup (create_appid_map_for_pages ps) k' = some v₁ →
      mapLookup (create_appid_map_for_pages ps) k' = some v₂ → v₁ = v₂) ∧
    mapLookup (create_appid_map_for_pages (l₁ ++ p :: l₂)) k = some p.pid :=
  ⟨fun _ _ _ _ hv₁ hv₂ => Option.some.inj ((hv₁.symm).trans hv₂),
   create_appid_map_last_seen l₁ p l₂ k hp h₂⟩

/-- Concrete instantiation of amended claim C3 at the duplicate-key pair. -/
theorem claim_C3_amended_witness :
    extractAppid ⟨"b", ["1"]⟩ = some "1" ∧
    (∀ (ps : List Page) (k' v₁ v₂ : String),
      mapLookup (create_appid_map_for_pages ps) k' = some v₁ →
      mapLookup (create_appid_map_for_pages ps) k' = some v₂ → v₁ = v₂) ∧
    mapLookup (create_appid_map_for_pages
      ([⟨"a", ["1"]⟩] ++ ⟨"b", ["1"]⟩ :: [])) "1" =
      some (Page.pid ⟨"b", ["1"]⟩) :=
  ⟨by decide,
   (claim_C3_amended [⟨"a", ["1"]⟩] ⟨"b", ["1"]⟩ [] "1" (by decide)
     (by simp)).1,
   (claim_C3_amended [⟨"a", ["1"]⟩] ⟨"b", ["1"]⟩ [] "1" (by decide)
     (by simp)).2⟩

/-- Claim C4: running the pipeline a second time on an unchanged source set,
starting from the destination state left by a first run in which every
mutation succeeded, creates no record in any collection; every item whose
detail carries a cover resolves through the update-in-place branch of the
primary collection (in order), and the secondary-stub and combined-record
creations are not taken because their identity keys are already present. -/
theorem claim_C4 (details : Nat → Option DetailData)
    (env1 env2 : Nat → ItemEnv) (D0 : DestState) (games : List Game)
    (h1 : EnvAllOk env1) (h2 : EnvAllOk env2) :
    (import_to_notion details env2
        (finalDest D0 (import_to_notion details env1 D0 games))
        games).rateCreatedPages = [] ∧
    (import_to_notion details env2
        (finalDest D0 (import_to_notion details env1 D0 games))
        games).steamCreatedPages = [] ∧
    (import_to_notion details env2
        (finalDest D0 (import_to_notion details env1 D0 games))
        games).mainCreatedPages = [] ∧
    (import_to_notion details env2
        (finalDest D0 (import_to_notion details env1 D0 games))
        games).steamUpdatedKeys =
      (coveredItems details games).map (fun g => toString g.appid) := by
  have hinvR : ∀ k, (mapLookup (initState D0).rateMap k).isSome →
      (∃ p ∈ D0.ratePages, extractAppid p = some k) ∨
      (∃ p ∈ (initState D0).rateCreatedPages, extractAppid p = some k) :=
    fun k hk => Or.inl ((isSome_create_appid_map D0.ratePages k).mp hk)
  have hinvS : ∀ k, (mapLookup (initState D0).steamMap k).isSome →
      (∃ p ∈ D0.steamPages, extractAppid p = some k) ∨
      (∃ p ∈ (initState D0).steamCreatedPages, extractAppid p = some k) :=
    fun k hk => Or.inl ((isSome_create_appid_map D0.steamPages k).mp hk)
  have hkeys : ∀ g ∈ games,
      (mapLookup (initState (finalDest D0
          (import_to_notion details env1 D0 games))).rateMap
        (toString g.appid)).isSome ∧
      (coverOf (details g.appid) ≠ "" →
        (mapLookup (initState (finalDest D0
            (import_to_notion details env1 D0 games))).steamMap
          (toString g.appid)).isSome ∧
        (mapLookup (initState (finalDest D0
            (import_to_notion details env1 D0 games))).mainMap
          (toString g.appid)).isSome) := by
    intro g hg
    obtain ⟨hrate, hcv⟩ := fold_coverage details h1 games (initState D0) g hg
    constructor
    · apply (isSome_create_appid_map _ _).mpr
      rcases fold_rate_inv games (initState D0) hinvR (toString g.appid)
          hrate with ⟨p, hp, hpk⟩ | ⟨p, hp, hpk⟩
      · exact ⟨p, List.mem_append_left _ hp, hpk⟩
      · exact ⟨p, List.mem_append_right _ hp, hpk⟩
    · intro hcovg
      obtain ⟨hsteam, hmain⟩ := hcv hcovg
      constructor
      · apply (isSome_create_appid_map _ _).mpr
        rcases fold_steam_inv games (initState D0) hinvS (toString g.appid)
            hsteam with ⟨p, hp, hpk⟩ | ⟨p, hp, hpk⟩
        · exact ⟨p, List.mem_append_left _ hp, hpk⟩
        · exact ⟨p, List.mem_append_right _ hp, hpk⟩
      · apply (isSome_create_appid_map _ _).mpr
        rcases hmain with hsome | ⟨p, hp, hpk⟩
        · obtain ⟨p, hp, hpk⟩ :=
            (isSome_create_appid_map D0.mainPages _).mp hsome
          exact ⟨p, List.mem_append_left _ hp, hpk⟩
        · exact ⟨p, List.mem_append_right _ hp, hpk⟩
  obtain ⟨r1, r2, r3, r4⟩ := fold_noop h2 games
    (initState (finalDest D0 (import_to_notion details env1 D0 games))) hkeys
  refine ⟨r1, r2, r3, ?_⟩
  rw [import_to_notion]
  simpa [initState] using r4

/-- Concrete instantiation of claim C4: a one-item source set run twice
against an initially empty destination. -/
theorem claim_C4_witness :
    EnvAllOk (fun _ => ⟨CallResult.ok "rp", fun _ => CallResult.ok "sp",
      CallResult.ok "mp"⟩) ∧
    ((import_to_notion (fun _ => some ⟨"G", "https://x", "", [], [], none, 0⟩)
        (fun _ => ⟨CallResult.ok "rp", fun _ => CallResult.ok "sp",
          CallResult.ok "mp"⟩)
        (finalDest ⟨[], [], []⟩
          (import_to_notion
            (fun _ => some ⟨"G", "https://x", "", [], [], none, 0⟩)
            (fun _ => ⟨CallResult.ok "rp", fun _ => CallResult.ok "sp",
              CallResult.ok "mp"⟩)
            ⟨[], [], []⟩ [⟨7, some 30, none⟩]))
        [⟨7, some 30, none⟩]).rateCreatedPages = [] ∧
    (import_to_notion (fun _ => some ⟨"G", "https://x", "", [], [], none, 0⟩)
        (fun _ => ⟨CallResult.ok "rp", fun _ => CallResult.ok "sp",
          CallResult.ok "mp"⟩)
        (finalDest ⟨[], [], []⟩
          (import_to_notion
            (fun _ => some ⟨"G", "https://x", "", [], [], none, 0⟩)
            (fun _ => ⟨CallResult.ok "rp", fun _ => CallResult.ok "sp",
              CallResult.ok "mp"⟩)
            ⟨[], [], []⟩ [⟨7, some 30, none⟩]))
        [⟨7, some 30, none⟩]).steamCreatedPages = [] ∧
    (import_to_notion (fun _ => some ⟨"G", "https://x", "", [], [], none, 0⟩)
        (fun _ => ⟨CallResult.ok "rp", fun _ => CallResult.ok "sp",
          CallResult.ok "mp"⟩)
        (finalDest ⟨[], [], []⟩
          (import_to_notion
            (fun _ => some ⟨"G", "https://x", "", [], [], none, 0⟩)
            (fun _ => ⟨CallResult.ok "rp", fun _ => CallResult.ok "sp",
              CallResult.ok "mp"⟩)
            ⟨[], [], []⟩ [⟨7, some 30, none⟩]))
        [⟨7, some 30, none⟩]).mainCreatedPages = [] ∧
    (import_to_notion (fun _ => some ⟨"G", "https://x", "", [], [], none, 0⟩)
        (fun _ => ⟨CallResult.ok "rp", fun _ => CallResult.ok "sp",
          CallResult.ok "mp"⟩)
        (finalDest ⟨[], [], []⟩
          (import_to_notion
            (fun _ => some ⟨"G", "https://x", "", [], [], none, 0⟩)
            (fun _ => ⟨CallResult.ok "rp", fun _ => CallResult.ok "sp",
              CallResult.ok "mp"⟩)
            ⟨[], [], []⟩ [⟨7, some 30, none⟩]))
        [⟨7, some 30, none⟩]).steamUpdatedKeys =
      (coveredItems (fun _ => some ⟨"G", "https://x", "", [], [], none, 0⟩)
        [⟨7, some 30, none⟩]).map (fun g => toString g.appid)) :=
  ⟨fun _ => ⟨⟨"rp", rfl⟩, ⟨"sp", rfl⟩, ⟨"mp", rfl⟩⟩,
   claim_C4 _ _ _ _ _
     (fun _ => ⟨⟨"rp", rfl⟩, ⟨"sp", rfl⟩, ⟨"mp", rfl⟩⟩)
     (fun _ => ⟨⟨"rp", rfl⟩, ⟨"sp", rfl⟩, ⟨"mp", rfl⟩⟩)⟩

end SteamToNotion
